import Mathlib

/-!
# Scene-graph parent relations

A shallow embedding of `source/gameengine/Ketsji/KX_SG_NodeRelationships.cpp`:
the three parent-relation strategies `KX_NormalParentRelation` (Rigid),
`KX_VertexParentRelation` (PositionOnly) and `KX_SlowParentRelation`
(DampedFollow), each with its `UpdateChildCoordinates` method.

Pointers become values: the child `SG_Spatial *` is passed in and the updated
child is returned, the `const SG_Spatial *parent` (possibly `NULL`) is an
`Option SG_Spatial`, and the in/out `bool &parentUpdated` is returned next to
the method's result.  `MT_Scalar` is read in exact arithmetic, as a rational; the slow
relation is also given with every operation rounded (`Rounded`), for the statements whose
truth depends on the floating-point arithmetic of the source.
-/

namespace KX

/-! ## The MoTo value types -/

/-- Scalars of the MoTo library, read in exact arithmetic.  The structural statements below
hold for any arithmetic; statements that need the field laws say "in exact arithmetic", and
the rounded arithmetic of the source's floating-point type is in `Rounded`. -/
abbrev MT_Scalar : Type := ℚ

/-- Modelled from the spec: the MoTo three-vector `MT_Vector3`, whose header is not part of
the sources; a triple of scalars with component-wise arithmetic. -/
structure MT_Vector3 where
  x : MT_Scalar
  y : MT_Scalar
  z : MT_Scalar
deriving DecidableEq

/-- Points share the representation and the arithmetic of vectors. -/
abbrev MT_Point3 : Type := MT_Vector3

/-- Modelled from the spec: the MoTo matrix `MT_Matrix3x3`, whose header is not part of the
sources; three rows, each an `MT_Vector3`. -/
structure MT_Matrix3x3 where
  r0 : MT_Vector3
  r1 : MT_Vector3
  r2 : MT_Vector3
deriving DecidableEq

namespace MT_Vector3

/-- Component access, `v[i]`. -/
def coord (v : MT_Vector3) (i : Fin 3) : MT_Scalar :=
  match i with
  | 0 => v.x
  | 1 => v.y
  | 2 => v.z

/-- Dot product of two vectors. -/
def dot (a b : MT_Vector3) : MT_Scalar :=
  a.x * b.x + a.y * b.y + a.z * b.z

/-- Vector sum, `a + b`. -/
instance : Add MT_Vector3 :=
  ⟨fun a b => ⟨a.x + b.x, a.y + b.y, a.z + b.z⟩⟩

/-- Vector difference, `a - b`. -/
instance : Sub MT_Vector3 :=
  ⟨fun a b => ⟨a.x - b.x, a.y - b.y, a.z - b.z⟩⟩

/-- Component-wise product of two vectors, `a * b`. -/
instance : Mul MT_Vector3 :=
  ⟨fun a b => ⟨a.x * b.x, a.y * b.y, a.z * b.z⟩⟩

/-- Scalar times vector, `s * v`. -/
instance : HMul MT_Scalar MT_Vector3 MT_Vector3 :=
  ⟨fun s v => ⟨s * v.x, s * v.y, s * v.z⟩⟩

/-- Vector times scalar, `v * s`. -/
instance : HMul MT_Vector3 MT_Scalar MT_Vector3 :=
  ⟨fun v s => ⟨v.x * s, v.y * s, v.z * s⟩⟩

end MT_Vector3

namespace MT_Matrix3x3

/-- Column `j` of a matrix, as a vector. -/
def col (m : MT_Matrix3x3) (j : Fin 3) : MT_Vector3 :=
  ⟨m.r0.coord j, m.r1.coord j, m.r2.coord j⟩

/-- Matrix times vector: each row dotted with the vector. -/
instance : HMul MT_Matrix3x3 MT_Vector3 MT_Vector3 :=
  ⟨fun m v => ⟨m.r0.dot v, m.r1.dot v, m.r2.dot v⟩⟩

/-- Matrix product: entry `(i, j)` is row `i` of the left factor dotted with column `j` of
the right factor. -/
instance : Mul MT_Matrix3x3 :=
  ⟨fun a b =>
    ⟨⟨a.r0.dot (b.col 0), a.r0.dot (b.col 1), a.r0.dot (b.col 2)⟩,
     ⟨a.r1.dot (b.col 0), a.r1.dot (b.col 1), a.r1.dot (b.col 2)⟩,
     ⟨a.r2.dot (b.col 0), a.r2.dot (b.col 1), a.r2.dot (b.col 2)⟩⟩⟩

end MT_Matrix3x3

/-! ## The spatial node -/

/-- Modelled from the spec: the node class `SG_Spatial`, whose header is not part of the
sources; local and world position, orientation and scale, the modified flag, and a flag
recording that the node asked to be scheduled again. -/
structure SG_Spatial where
  m_localPosition : MT_Point3
  m_localRotation : MT_Matrix3x3
  m_localScaling : MT_Vector3
  m_worldPosition : MT_Point3
  m_worldRotation : MT_Matrix3x3
  m_worldScaling : MT_Vector3
  m_modified : Bool
  m_rescheduled : Bool
deriving DecidableEq

namespace SG_Spatial

def GetLocalPosition (s : SG_Spatial) : MT_Point3 := s.m_localPosition

def GetLocalOrientation (s : SG_Spatial) : MT_Matrix3x3 := s.m_localRotation

def GetLocalScale (s : SG_Spatial) : MT_Vector3 := s.m_localScaling

def GetWorldPosition (s : SG_Spatial) : MT_Point3 := s.m_worldPosition

def GetWorldOrientation (s : SG_Spatial) : MT_Matrix3x3 := s.m_worldRotation

def GetWorldScaling (s : SG_Spatial) : MT_Vector3 := s.m_worldScaling

def IsModified (s : SG_Spatial) : Bool := s.m_modified

def SetWorldPosition (s : SG_Spatial) (pos : MT_Point3) : SG_Spatial :=
  { s with m_worldPosition := pos }

def SetWorldOrientation (s : SG_Spatial) (rot : MT_Matrix3x3) : SG_Spatial :=
  { s with m_worldRotation := rot }

def SetWorldScale (s : SG_Spatial) (scale : MT_Vector3) : SG_Spatial :=
  { s with m_worldScaling := scale }

/-- World position, scale and orientation are overwritten with the local ones. -/
def SetWorldFromLocalTransform (s : SG_Spatial) : SG_Spatial :=
  { s with
    m_worldPosition := s.m_localPosition
    m_worldScaling := s.m_localScaling
    m_worldRotation := s.m_localRotation }

def ClearModified (s : SG_Spatial) : SG_Spatial :=
  { s with m_modified := false }

/-- The node asks to be evaluated again on the next pass. -/
def ActivateRecheduleUpdateCallback (s : SG_Spatial) : SG_Spatial :=
  { s with m_rescheduled := true }

end SG_Spatial

/-! ## Results of one call -/

/-- What a call of `UpdateChildCoordinates` of a stateless relation leaves behind: the
child, the in/out flag `parentUpdated`, and the returned boolean. -/
structure UpdateResult where
  child : SG_Spatial
  parentUpdated : Bool
  ret : Bool
deriving DecidableEq

/-! ## KX_NormalParentRelation -/

/-- The method `KX_NormalParentRelation::UpdateChildCoordinates`. -/
def KX_NormalParentRelation.UpdateChildCoordinates
    (child : SG_Spatial) (parent : Option SG_Spatial) (parentUpdated : Bool) : UpdateResult :=
  if !parentUpdated && !child.IsModified then
    ⟨child, parentUpdated, false⟩
  else
    let child1 : SG_Spatial :=
      match parent with
      | none => child.SetWorldFromLocalTransform
      | some parent =>
        let p_world_scale := parent.GetWorldScaling
        let p_world_pos := parent.GetWorldPosition
        let p_world_orientation := parent.GetWorldOrientation
        let local_scale := child.GetLocalScale
        let local_pos := child.GetLocalPosition
        let local_orientation := child.GetLocalOrientation
        let c1 := child.SetWorldScale (p_world_scale * local_scale)
        let c2 := c1.SetWorldOrientation (p_world_orientation * local_orientation)
        c2.SetWorldPosition
          (p_world_pos + p_world_scale * local_scale *
            (p_world_orientation * local_orientation * local_pos))
    ⟨child1.ClearModified, true, true⟩

/-! ## KX_VertexParentRelation -/

/-- The method `KX_VertexParentRelation::UpdateChildCoordinates`. -/
def KX_VertexParentRelation.UpdateChildCoordinates
    (child : SG_Spatial) (parent : Option SG_Spatial) (parentUpdated : Bool) : UpdateResult :=
  if !parentUpdated && !child.IsModified then
    ⟨child, parentUpdated, false⟩
  else
    let c1 : SG_Spatial :=
      match parent with
      | none => child.SetWorldPosition child.GetLocalPosition
      | some parent =>
        child.SetWorldPosition (child.GetLocalPosition + parent.GetWorldPosition)
    let c2 := c1.SetWorldScale c1.GetLocalScale
    let c3 := c2.SetWorldOrientation c2.GetLocalOrientation
    ⟨c3.ClearModified, true, true⟩

/-! ## KX_SlowParentRelation -/

/-- The fields of `KX_SlowParentRelation`. -/
structure KX_SlowParentRelation where
  m_relax : MT_Scalar
  m_initialized : Bool
deriving DecidableEq

/-- What a call of `KX_SlowParentRelation::UpdateChildCoordinates` leaves behind: the
relation itself, the child, the in/out flag `parentUpdated`, and the returned boolean. -/
structure SlowUpdateResult where
  relation : KX_SlowParentRelation
  child : SG_Spatial
  parentUpdated : Bool
  ret : Bool
deriving DecidableEq

namespace KX_SlowParentRelation

/-- The constructor, reached through `KX_SlowParentRelation::New`. -/
def New (relaxation : MT_Scalar) : KX_SlowParentRelation :=
  { m_relax := relaxation, m_initialized := false }

/-- The local `child_n_scale` of `UpdateChildCoordinates`, for a present parent. -/
def child_n_scale (child parent : SG_Spatial) : MT_Vector3 :=
  parent.GetWorldScaling * child.GetLocalScale

/-- The local `child_n_rotation` of `UpdateChildCoordinates`, for a present parent. -/
def child_n_rotation (child parent : SG_Spatial) : MT_Matrix3x3 :=
  parent.GetWorldOrientation * child.GetLocalOrientation

/-- The local `child_n_pos` of `UpdateChildCoordinates`, for a present parent. -/
def child_n_pos (child parent : SG_Spatial) : MT_Point3 :=
  parent.GetWorldPosition + parent.GetWorldScaling *
    (parent.GetWorldOrientation * child.GetLocalPosition)

/-- The method `KX_SlowParentRelation::UpdateChildCoordinates`.  The orientation blend
`a.getRotation().slerp(b.getRotation(), w)` followed by `setRotation` belongs to the MoTo
quaternion code, which is not part of the sources; it is the parameter `slerpRotation`. -/
def UpdateChildCoordinates
    (slerpRotation : MT_Matrix3x3 → MT_Matrix3x3 → MT_Scalar → MT_Matrix3x3)
    (self : KX_SlowParentRelation)
    (child : SG_Spatial) (parent : Option SG_Spatial) (_parentUpdated : Bool) :
    SlowUpdateResult :=
  let parentUpdated := true
  let child_scale := child.GetLocalScale
  let child_pos := child.GetLocalPosition
  let child_rotation := child.GetLocalOrientation
  let step : KX_SlowParentRelation × MT_Vector3 × MT_Point3 × MT_Matrix3x3 :=
    match parent with
    | some parent =>
      let p_world_scale := parent.GetWorldScaling
      let p_world_pos := parent.GetWorldPosition
      let p_world_rotation := parent.GetWorldOrientation
      let child_n_scale := p_world_scale * child_scale
      let child_n_rotation := p_world_rotation * child_rotation
      let child_n_pos := p_world_pos + p_world_scale * (p_world_rotation * child_pos)
      if self.m_initialized then
        let child_w_scale := child.GetWorldScaling
        let child_w_pos := child.GetWorldPosition
        let child_w_rotation := child.GetWorldOrientation
        let weight : MT_Scalar := 1 / (self.m_relax + 1)
        (self,
          (self.m_relax * child_w_scale + child_n_scale) * weight,
          (self.m_relax * child_w_pos + child_n_pos) * weight,
          slerpRotation child_w_rotation child_n_rotation weight)
      else
        ({ self with m_initialized := true }, child_n_scale, child_n_pos, child_n_rotation)
    | none => (self, child_scale, child_pos, child_rotation)
  let c1 := child.SetWorldScale step.2.1
  let c2 := c1.SetWorldPosition step.2.2.1
  let c3 := c2.SetWorldOrientation step.2.2.2
  let c4 := c3.ClearModified
  let c5 := c4.ActivateRecheduleUpdateCallback
  ⟨step.1, c5, parentUpdated, true⟩

/-- The method `KX_SlowParentRelation::NewCopy`. -/
def NewCopy (self : KX_SlowParentRelation) : KX_SlowParentRelation :=
  New self.m_relax

/-- Successive calls of `UpdateChildCoordinates` on one relation instance and one child
under the same parent: the relation and the child after `n` calls, call number `k`
receiving the incoming flag `flags k`. -/
def repeatUpdate
    (slerpRotation : MT_Matrix3x3 → MT_Matrix3x3 → MT_Scalar → MT_Matrix3x3)
    (parent : Option SG_Spatial) (flags : ℕ → Bool) :
    ℕ → KX_SlowParentRelation × SG_Spatial → KX_SlowParentRelation × SG_Spatial
  | 0, s => s
  | n + 1, s =>
    let prev := repeatUpdate slerpRotation parent flags n s
    let r := prev.1.UpdateChildCoordinates slerpRotation prev.2 parent (flags n)
    (r.relation, r.child)

/-- A sequence of calls of `UpdateChildCoordinates` on one relation instance, each call with
its own child, parent (or none) and incoming flag: the relation after the last call. -/
def afterCalls
    (slerpRotation : MT_Matrix3x3 → MT_Matrix3x3 → MT_Scalar → MT_Matrix3x3) :
    List (SG_Spatial × Option SG_Spatial × Bool) → KX_SlowParentRelation →
      KX_SlowParentRelation
  | [], self => self
  | (child, parent, parentUpdated) :: rest, self =>
    afterCalls slerpRotation rest
      (self.UpdateChildCoordinates slerpRotation child parent parentUpdated).relation

end KX_SlowParentRelation

/-! ## Relation objects behind pointers -/

/-- A heap of relation objects: a pointer is an address, and the object it refers to is the
entry of `objects` at that address, if there is one. -/
structure RelationHeap where
  objects : List KX_SlowParentRelation
deriving DecidableEq

namespace RelationHeap

/-- The object the pointer `p` refers to, if any. -/
def read (h : RelationHeap) (p : Nat) : Option KX_SlowParentRelation :=
  h.objects[p]?

/-- The expression `new KX_SlowParentRelation(...)`: the constructed object is placed at an
address that is not in use, and that address is the value of the expression. -/
def allocate (h : RelationHeap) (obj : KX_SlowParentRelation) : RelationHeap × Nat :=
  ({ objects := h.objects ++ [obj] }, h.objects.length)

/-- An assignment to the fields of the object the pointer `p` refers to. -/
def store (h : RelationHeap) (p : Nat) (obj : KX_SlowParentRelation) : RelationHeap :=
  { objects := h.objects.set p obj }

/-- The method `NewCopy` called through the pointer `self`:
`return new KX_SlowParentRelation(m_relax)`.  The result is the heap after the call and the
returned pointer; `none` if `self` refers to no object. -/
def NewCopyAt (h : RelationHeap) (self : Nat) : Option (RelationHeap × Nat) :=
  match h.read self with
  | none => none
  | some obj => some (h.allocate obj.NewCopy)

/-- The method `UpdateChildCoordinates` called through the pointer `self`: the fields of the
object are those of the relation the call leaves behind. -/
def UpdateAt
    (slerpRotation : MT_Matrix3x3 → MT_Matrix3x3 → MT_Scalar → MT_Matrix3x3)
    (h : RelationHeap) (self : Nat)
    (child : SG_Spatial) (parent : Option SG_Spatial) (parentUpdated : Bool) : RelationHeap :=
  match h.read self with
  | none => h
  | some obj =>
    h.store self (obj.UpdateChildCoordinates slerpRotation child parent parentUpdated).relation

end RelationHeap

/-! ## The slow relation in rounded arithmetic

The source's `MT_Scalar` is a binary floating-point type.  Here every arithmetic operation
of `KX_SlowParentRelation::UpdateChildCoordinates` is followed by a rounding `fl`; with
`fl` the identity this is the method in exact arithmetic given above. -/

/-- Rounding of a rational to the nearest number with a significand of `prec` bits, ties to
the even significand, the exponent unbounded: the rounding of binary floating-point
arithmetic away from overflow and underflow (`prec = 24` single, `prec = 53` double). -/
def roundNearestEven (prec : ℕ) (x : ℚ) : ℚ :=
  if x = 0 then 0
  else
    let ulp : ℚ := 2 ^ (Int.log 2 |x| - ((prec : ℤ) - 1))
    let q := x / ulp
    let f := ⌊q⌋
    if q - f < 1 / 2 then f * ulp
    else if 1 / 2 < q - f then (f + 1) * ulp
    else if f % 2 = 0 then f * ulp else (f + 1) * ulp

namespace Rounded

/-- Rounded vector sum. -/
def add (fl : ℚ → ℚ) (a b : MT_Vector3) : MT_Vector3 :=
  ⟨fl (a.x + b.x), fl (a.y + b.y), fl (a.z + b.z)⟩

/-- Rounded component-wise product of two vectors. -/
def mul (fl : ℚ → ℚ) (a b : MT_Vector3) : MT_Vector3 :=
  ⟨fl (a.x * b.x), fl (a.y * b.y), fl (a.z * b.z)⟩

/-- Rounded scalar times vector. -/
def scalarMul (fl : ℚ → ℚ) (s : MT_Scalar) (v : MT_Vector3) : MT_Vector3 :=
  ⟨fl (s * v.x), fl (s * v.y), fl (s * v.z)⟩

/-- Rounded vector times scalar. -/
def mulScalar (fl : ℚ → ℚ) (v : MT_Vector3) (s : MT_Scalar) : MT_Vector3 :=
  ⟨fl (v.x * s), fl (v.y * s), fl (v.z * s)⟩

/-- Rounded dot product, summed from the left. -/
def dot (fl : ℚ → ℚ) (a b : MT_Vector3) : MT_Scalar :=
  fl (fl (fl (a.x * b.x) + fl (a.y * b.y)) + fl (a.z * b.z))

/-- Rounded matrix times vector. -/
def mulVec (fl : ℚ → ℚ) (m : MT_Matrix3x3) (v : MT_Vector3) : MT_Vector3 :=
  ⟨dot fl m.r0 v, dot fl m.r1 v, dot fl m.r2 v⟩

/-- Rounded matrix product. -/
def matMul (fl : ℚ → ℚ) (a b : MT_Matrix3x3) : MT_Matrix3x3 :=
  ⟨⟨dot fl a.r0 (b.col 0), dot fl a.r0 (b.col 1), dot fl a.r0 (b.col 2)⟩,
   ⟨dot fl a.r1 (b.col 0), dot fl a.r1 (b.col 1), dot fl a.r1 (b.col 2)⟩,
   ⟨dot fl a.r2 (b.col 0), dot fl a.r2 (b.col 1), dot fl a.r2 (b.col 2)⟩⟩

/-- The local `child_n_pos` of `UpdateChildCoordinates` in rounded arithmetic. -/
def child_n_pos (fl : ℚ → ℚ) (child parent : SG_Spatial) : MT_Point3 :=
  add fl parent.GetWorldPosition
    (mul fl parent.GetWorldScaling (mulVec fl parent.GetWorldOrientation child.GetLocalPosition))

/-- The method `KX_SlowParentRelation::UpdateChildCoordinates` with every arithmetic
operation rounded by `fl`. -/
def UpdateChildCoordinates (fl : ℚ → ℚ)
    (slerpRotation : MT_Matrix3x3 → MT_Matrix3x3 → MT_Scalar → MT_Matrix3x3)
    (self : KX_SlowParentRelation)
    (child : SG_Spatial) (parent : Option SG_Spatial) (_parentUpdated : Bool) :
    SlowUpdateResult :=
  let parentUpdated := true
  let child_scale := child.GetLocalScale
  let child_pos := child.GetLocalPosition
  let child_rotation := child.GetLocalOrientation
  let step : KX_SlowParentRelation × MT_Vector3 × MT_Point3 × MT_Matrix3x3 :=
    match parent with
    | some parent =>
      let p_world_scale := parent.GetWorldScaling
      let p_world_pos := parent.GetWorldPosition
      let p_world_rotation := parent.GetWorldOrientation
      let child_n_scale := mul fl p_world_scale child_scale
      let child_n_rotation := matMul fl p_world_rotation child_rotation
      let child_n_pos :=
        add fl p_world_pos (mul fl p_world_scale (mulVec fl p_world_rotation child_pos))
      if self.m_initialized then
        let child_w_scale := child.GetWorldScaling
        let child_w_pos := child.GetWorldPosition
        let child_w_rotation := child.GetWorldOrientation
        let weight : MT_Scalar := fl (1 / fl (self.m_relax + 1))
        (self,
          mulScalar fl (add fl (scalarMul fl self.m_relax child_w_scale) child_n_scale) weight,
          mulScalar fl (add fl (scalarMul fl self.m_relax child_w_pos) child_n_pos) weight,
          slerpRotation child_w_rotation child_n_rotation weight)
      else
        ({ self with m_initialized := true }, child_n_scale, child_n_pos, child_n_rotation)
    | none => (self, child_scale, child_pos, child_rotation)
  let c1 := child.SetWorldScale step.2.1
  let c2 := c1.SetWorldPosition step.2.2.1
  let c3 := c2.SetWorldOrientation step.2.2.2
  let c4 := c3.ClearModified
  let c5 := c4.ActivateRecheduleUpdateCallback
  ⟨step.1, c5, parentUpdated, true⟩

end Rounded

/-! ## Transforms and the rigid composition -/

/-- A scale, a position and an orientation: the local or the world half of a node. -/
structure Transform where
  scale : MT_Vector3
  position : MT_Point3
  orientation : MT_Matrix3x3
deriving DecidableEq

/-- The local transform of a node. -/
def SG_Spatial.localTransform (s : SG_Spatial) : Transform :=
  { scale := s.m_localScaling, position := s.m_localPosition, orientation := s.m_localRotation }

/-- The world transform of a node. -/
def SG_Spatial.worldTransform (s : SG_Spatial) : Transform :=
  { scale := s.m_worldScaling, position := s.m_worldPosition, orientation := s.m_worldRotation }

/-- The identity orientation. -/
def identityRotation : MT_Matrix3x3 :=
  ⟨⟨1, 0, 0⟩, ⟨0, 1, 0⟩, ⟨0, 0, 1⟩⟩

/-- A quarter turn about the z axis. -/
def quarterTurnZ : MT_Matrix3x3 :=
  ⟨⟨0, -1, 0⟩, ⟨1, 0, 0⟩, ⟨0, 0, 1⟩⟩

/-- A parent at `(5, 6, 7)`, turned a quarter about z, with scale 2. -/
def sampleParent : SG_Spatial :=
  { m_localPosition := ⟨5, 6, 7⟩
    m_localRotation := quarterTurnZ
    m_localScaling := ⟨2, 2, 2⟩
    m_worldPosition := ⟨5, 6, 7⟩
    m_worldRotation := quarterTurnZ
    m_worldScaling := ⟨2, 2, 2⟩
    m_modified := false
    m_rescheduled := false }

/-- A child with local position `(1, 0, 0)`, local scale 3 and a quarter turn, whose world
transform still holds stale values. -/
def sampleChild : SG_Spatial :=
  { m_localPosition := ⟨1, 0, 0⟩
    m_localRotation := quarterTurnZ
    m_localScaling := ⟨3, 3, 3⟩
    m_worldPosition := ⟨9, 9, 9⟩
    m_worldRotation := identityRotation
    m_worldScaling := ⟨1, 1, 1⟩
    m_modified := true
    m_rescheduled := false }

/-- A stand-in for the orientation blend: it returns the target orientation. -/
def sampleSlerp : MT_Matrix3x3 → MT_Matrix3x3 → MT_Scalar → MT_Matrix3x3 :=
  fun _ b _ => b

/-- A parent at the origin with identity orientation and unit scale. -/
def originParent : SG_Spatial :=
  { m_localPosition := ⟨0, 0, 0⟩
    m_localRotation := identityRotation
    m_localScaling := ⟨1, 1, 1⟩
    m_worldPosition := ⟨0, 0, 0⟩
    m_worldRotation := identityRotation
    m_worldScaling := ⟨1, 1, 1⟩
    m_modified := false
    m_rescheduled := false }

/-- A modified child with local position `(1, 0, 0)`, local scale 2 and identity
orientation, whose world transform is still all zero. -/
def scaledChild : SG_Spatial :=
  { m_localPosition := ⟨1, 0, 0⟩
    m_localRotation := identityRotation
    m_localScaling := ⟨2, 2, 2⟩
    m_worldPosition := ⟨0, 0, 0⟩
    m_worldRotation := identityRotation
    m_worldScaling := ⟨0, 0, 0⟩
    m_modified := true
    m_rescheduled := false }

/-- An unmodified child with local position `(1, 0, 0)`, unit scale and identity
orientation, whose world position `(1 - 2 ^ (-prec), 0, 0)` is the number with a
significand of `prec` bits just below 1. -/
def nearChild (prec : ℕ) : SG_Spatial :=
  { m_localPosition := ⟨1, 0, 0⟩
    m_localRotation := identityRotation
    m_localScaling := ⟨1, 1, 1⟩
    m_worldPosition := ⟨1 - 1 / 2 ^ prec, 0, 0⟩
    m_worldRotation := identityRotation
    m_worldScaling := ⟨1, 1, 1⟩
    m_modified := false
    m_rescheduled := false }

/-- An unmodified child with local position `(1, 0, 0)`, unit scale and identity
orientation, whose world transform is still all zero. -/
def unitChild : SG_Spatial :=
  { m_localPosition := ⟨1, 0, 0⟩
    m_localRotation := identityRotation
    m_localScaling := ⟨1, 1, 1⟩
    m_worldPosition := ⟨0, 0, 0⟩
    m_worldRotation := identityRotation
    m_worldScaling := ⟨0, 0, 0⟩
    m_modified := false
    m_rescheduled := false }

end KX

/-!
# Vertex array bindings

A shallow embedding of `vbo_bind` of `source/blender/gpu/opengl/gl_vertex_array.cc`.  The
OpenGL calls the function issues are collected, in order, in a list; `uint` arithmetic is
taken modulo `2 ^ 32` and the `uint16_t` result modulo `2 ^ 16`.
-/

namespace GLVertArray

end GLVertArray

/-!
# Henyey-Greenstein sampling

A shallow embedding of the scalar part of `volume_henyey_greenstein_sample` of
`intern/cycles/kernel/closure/volume.h`: the branch on the anisotropy and the locals `k`
and `cos_theta`, with `float` read in exact arithmetic, as a rational.  The direction
`omega_in` and the density `pdf`, which need `sqrt`, `cosf`, `sinf` and `pow`, are left out.
-/

namespace Volume

/-- The constant `magic_eps = 0.001f`. -/
def magic_eps : ℚ := 1 / 1000

/-- The denominator `1.0f - m_g + 2.0f * m_g * randu` of the local `k`. -/
def k_denominator (m_g randu : ℚ) : ℚ :=
  1 - m_g + 2 * m_g * randu

/-- The local `k` of `volume_henyey_greenstein_sample`. -/
def sample_k (m_g randu : ℚ) : ℚ :=
  (1 - m_g * m_g) / (1 - m_g + 2 * m_g * randu)

/-- The local `cos_theta` of `volume_henyey_greenstein_sample`: `none` in the branch
`fabsf(m_g) < magic_eps`, which samples the uniform sphere and computes no `cos_theta`;
otherwise the value assigned by the inner `if`. -/
def sample_cos_theta (m_g randu : ℚ) : Option ℚ :=
  if |m_g| < magic_eps then
    none
  else
    some
      (if |m_g| < magic_eps then
        1 - 2 * randu
      else
        let k := (1 - m_g * m_g) / (1 - m_g + 2 * m_g * randu)
        (1 + m_g * m_g - k * k) / (2 * m_g))

/-- The argument `1 - cos_theta * cos_theta` of the square root that gives `sin_theta`. -/
def sin_theta_radicand (cos_theta : ℚ) : ℚ :=
  1 - cos_theta * cos_theta

end Volume

namespace KX

/-! ## Unfolding lemmas for the value types -/

theorem MT_Vector3.add_def (a b : MT_Vector3) :
    a + b = ⟨a.x + b.x, a.y + b.y, a.z + b.z⟩ := rfl

theorem MT_Vector3.sub_def (a b : MT_Vector3) :
    a - b = ⟨a.x - b.x, a.y - b.y, a.z - b.z⟩ := rfl

theorem MT_Vector3.mul_def (a b : MT_Vector3) :
    a * b = ⟨a.x * b.x, a.y * b.y, a.z * b.z⟩ := rfl

theorem MT_Vector3.scalar_mul_def (s : MT_Scalar) (v : MT_Vector3) :
    s * v = (⟨s * v.x, s * v.y, s * v.z⟩ : MT_Vector3) := rfl

theorem MT_Vector3.mul_scalar_def (v : MT_Vector3) (s : MT_Scalar) :
    v * s = (⟨v.x * s, v.y * s, v.z * s⟩ : MT_Vector3) := rfl

theorem MT_Matrix3x3.mul_vec_def (m : MT_Matrix3x3) (v : MT_Vector3) :
    m * v = (⟨m.r0.dot v, m.r1.dot v, m.r2.dot v⟩ : MT_Vector3) := rfl

theorem MT_Matrix3x3.mat_mul_def (a b : MT_Matrix3x3) :
    a * b =
      ⟨⟨a.r0.dot (b.col 0), a.r0.dot (b.col 1), a.r0.dot (b.col 2)⟩,
       ⟨a.r1.dot (b.col 0), a.r1.dot (b.col 1), a.r1.dot (b.col 2)⟩,
       ⟨a.r2.dot (b.col 0), a.r2.dot (b.col 1), a.r2.dot (b.col 2)⟩⟩ := rfl

/-! ## Rigid and PositionOnly -/

/-- C1. Rigid, on every call that does not take the fast path: without a parent the world
position, scale and orientation become the local ones; with a parent the world scale is
`Ps * Cs` component-wise, the world orientation is the matrix product `Po * Co`, and the
world position is `Pp + Ps * Cs * ((Po * Co) * Cp)`. -/
theorem normal_relation_world_transform
    (child : SG_Spatial) (parent : Option SG_Spatial) (parentUpdated : Bool)
    (hwork : parentUpdated = true ∨ child.m_modified = true) :
    (parent = none →
      (KX_NormalParentRelation.UpdateChildCoordinates child parent parentUpdated).child.m_worldPosition
          = child.m_localPosition ∧
      (KX_NormalParentRelation.UpdateChildCoordinates child parent parentUpdated).child.m_worldScaling
          = child.m_localScaling ∧
      (KX_NormalParentRelation.UpdateChildCoordinates child parent parentUpdated).child.m_worldRotation
          = child.m_localRotation) ∧
    (∀ p : SG_Spatial, parent = some p →
      (KX_NormalParentRelation.UpdateChildCoordinates child parent parentUpdated).child.m_worldScaling
          = p.m_worldScaling * child.m_localScaling ∧
      (KX_NormalParentRelation.UpdateChildCoordinates child parent parentUpdated).child.m_worldRotation
          = p.m_worldRotation * child.m_localRotation ∧
      (KX_NormalParentRelation.UpdateChildCoordinates child parent parentUpdated).child.m_worldPosition
          = p.m_worldPosition +
              (p.m_worldScaling * child.m_localScaling) *
                ((p.m_worldRotation * child.m_localRotation) * child.m_localPosition)) := by
  have hguard : (!parentUpdated && !child.IsModified) = false := by
    rcases hwork with h | h <;> simp [SG_Spatial.IsModified, h]
  constructor
  · intro hp
    subst hp
    simp only [KX_NormalParentRelation.UpdateChildCoordinates, hguard]
    exact ⟨rfl, rfl, rfl⟩
  · intro p hp
    subst hp
    simp only [KX_NormalParentRelation.UpdateChildCoordinates, hguard]
    exact ⟨rfl, rfl, rfl⟩

/-- C1, at a concrete input: a modified child under the sample parent, and the same child
as a root. -/
theorem normal_relation_world_transform_witness :
    (sampleChild.m_modified = true) ∧
    (KX_NormalParentRelation.UpdateChildCoordinates sampleChild (some sampleParent) false).child.m_worldPosition
      = sampleParent.m_worldPosition +
          (sampleParent.m_worldScaling * sampleChild.m_localScaling) *
            ((sampleParent.m_worldRotation * sampleChild.m_localRotation) *
              sampleChild.m_localPosition) ∧
    (KX_NormalParentRelation.UpdateChildCoordinates sampleChild none false).child.m_worldPosition
      = sampleChild.m_localPosition :=
  ⟨rfl,
   ((normal_relation_world_transform sampleChild (some sampleParent) false (Or.inr rfl)).2
      sampleParent rfl).2.2,
   ((normal_relation_world_transform sampleChild none false (Or.inr rfl)).1 rfl).1⟩

/-- C2. Skip on no change, for Rigid and for PositionOnly: when `parentUpdated` comes in
false and the child is not modified, the call returns false and the child (its world
position, scale and orientation and its modified flag in particular) is left as it was. -/
theorem skip_on_no_change
    (child : SG_Spatial) (parent : Option SG_Spatial) (parentUpdated : Bool)
    (hpu : parentUpdated = false) (hmod : child.m_modified = false) :
    ((KX_NormalParentRelation.UpdateChildCoordinates child parent parentUpdated).ret = false ∧
      (KX_NormalParentRelation.UpdateChildCoordinates child parent parentUpdated).child = child) ∧
    ((KX_VertexParentRelation.UpdateChildCoordinates child parent parentUpdated).ret = false ∧
      (KX_VertexParentRelation.UpdateChildCoordinates child parent parentUpdated).child = child) := by
  subst hpu
  simp [KX_NormalParentRelation.UpdateChildCoordinates,
    KX_VertexParentRelation.UpdateChildCoordinates, SG_Spatial.IsModified, hmod]

/-- C2, at a concrete input: the unmodified node `sampleParent` in the role of the child,
with `sampleChild` in the role of its parent. -/
theorem skip_on_no_change_witness :
    sampleParent.m_modified = false ∧
    ((KX_NormalParentRelation.UpdateChildCoordinates sampleParent (some sampleChild) false).ret = false ∧
      (KX_NormalParentRelation.UpdateChildCoordinates sampleParent (some sampleChild) false).child
        = sampleParent) ∧
    ((KX_VertexParentRelation.UpdateChildCoordinates sampleParent (some sampleChild) false).ret = false ∧
      (KX_VertexParentRelation.UpdateChildCoordinates sampleParent (some sampleChild) false).child
        = sampleParent) :=
  ⟨rfl, skip_on_no_change sampleParent (some sampleChild) false rfl rfl⟩

/-- C3. For Rigid and for PositionOnly, every call in which `parentUpdated` comes in true or
the child is modified returns true and leaves the child with its modified flag cleared,
with or without a parent. -/
theorem work_done_clears_modified
    (child : SG_Spatial) (parent : Option SG_Spatial) (parentUpdated : Bool)
    (hwork : parentUpdated = true ∨ child.m_modified = true) :
    ((KX_NormalParentRelation.UpdateChildCoordinates child parent parentUpdated).ret = true ∧
      (KX_NormalParentRelation.UpdateChildCoordinates child parent parentUpdated).child.m_modified
        = false) ∧
    ((KX_VertexParentRelation.UpdateChildCoordinates child parent parentUpdated).ret = true ∧
      (KX_VertexParentRelation.UpdateChildCoordinates child parent parentUpdated).child.m_modified
        = false) := by
  have hguard : (!parentUpdated && !child.IsModified) = false := by
    rcases hwork with h | h <;> simp [SG_Spatial.IsModified, h]
  simp only [KX_NormalParentRelation.UpdateChildCoordinates,
    KX_VertexParentRelation.UpdateChildCoordinates, hguard]
  cases parent <;> exact ⟨⟨rfl, rfl⟩, ⟨rfl, rfl⟩⟩

/-- C3, at a concrete input: the modified sample child, under the sample parent. -/
theorem work_done_clears_modified_witness :
    sampleChild.m_modified = true ∧
    ((KX_NormalParentRelation.UpdateChildCoordinates sampleChild (some sampleParent) false).ret = true ∧
      (KX_NormalParentRelation.UpdateChildCoordinates sampleChild (some sampleParent) false).child.m_modified
        = false) ∧
    ((KX_VertexParentRelation.UpdateChildCoordinates sampleChild (some sampleParent) false).ret = true ∧
      (KX_VertexParentRelation.UpdateChildCoordinates sampleChild (some sampleParent) false).child.m_modified
        = false) :=
  ⟨rfl, work_done_clears_modified sampleChild (some sampleParent) false (Or.inr rfl)⟩

/-- C4. PositionOnly, on every call that does work: the world position becomes the local
position without a parent and `local_position + parent.world_position` with one; world
scale and orientation become the local ones in both cases; two parents with the same world
position give the same result whatever their world scale and orientation; and under a
parent turned a quarter about z with scale 2, a child with local position `(1, 0, 0)` ends
at `parent.world_position + (1, 0, 0)`. -/
theorem vertex_relation_world_transform
    (child : SG_Spatial) (parent : Option SG_Spatial) (parentUpdated : Bool)
    (hwork : parentUpdated = true ∨ child.m_modified = true) :
    (parent = none →
      (KX_VertexParentRelation.UpdateChildCoordinates child parent parentUpdated).child.m_worldPosition
        = child.m_localPosition) ∧
    (∀ p : SG_Spatial, parent = some p →
      (KX_VertexParentRelation.UpdateChildCoordinates child parent parentUpdated).child.m_worldPosition
        = child.m_localPosition + p.m_worldPosition) ∧
    (KX_VertexParentRelation.UpdateChildCoordinates child parent parentUpdated).child.m_worldScaling
      = child.m_localScaling ∧
    (KX_VertexParentRelation.UpdateChildCoordinates child parent parentUpdated).child.m_worldRotation
      = child.m_localRotation ∧
    (∀ p q : SG_Spatial, p.m_worldPosition = q.m_worldPosition →
      KX_VertexParentRelation.UpdateChildCoordinates child (some p) parentUpdated
        = KX_VertexParentRelation.UpdateChildCoordinates child (some q) parentUpdated) ∧
    (∀ p : SG_Spatial, p.m_worldRotation = quarterTurnZ → p.m_worldScaling = ⟨2, 2, 2⟩ →
      child.m_localPosition = ⟨1, 0, 0⟩ →
      (KX_VertexParentRelation.UpdateChildCoordinates child (some p) parentUpdated).child.m_worldPosition
        = p.m_worldPosition + (⟨1, 0, 0⟩ : MT_Vector3)) := by
  have hguard : (!parentUpdated && !child.IsModified) = false := by
    rcases hwork with h | h <;> simp [SG_Spatial.IsModified, h]
  refine ⟨?_, ?_, ?_, ?_, ?_, ?_⟩
  · intro hp
    subst hp
    simp only [KX_VertexParentRelation.UpdateChildCoordinates, hguard]
    rfl
  · intro p hp
    subst hp
    simp only [KX_VertexParentRelation.UpdateChildCoordinates, hguard]
    rfl
  · simp only [KX_VertexParentRelation.UpdateChildCoordinates, hguard]
    cases parent <;> rfl
  · simp only [KX_VertexParentRelation.UpdateChildCoordinates, hguard]
    cases parent <;> rfl
  · intro p q hpq
    simp only [KX_VertexParentRelation.UpdateChildCoordinates, hguard,
      SG_Spatial.GetWorldPosition, hpq]
  · intro p _ _ hloc
    simp only [KX_VertexParentRelation.UpdateChildCoordinates, hguard]
    show child.m_localPosition + p.m_worldPosition = p.m_worldPosition + (⟨1, 0, 0⟩ : MT_Vector3)
    rw [hloc, MT_Vector3.add_def, MT_Vector3.add_def]
    simp [add_comm]

/-- C4, at a concrete input: `sampleChild` (local position `(1, 0, 0)`) under `sampleParent`
(at `(5, 6, 7)`, a quarter turn about z, scale 2) ends at `(5, 6, 7) + (1, 0, 0)`. -/
theorem vertex_relation_world_transform_witness :
    sampleChild.m_modified = true ∧
    (KX_VertexParentRelation.UpdateChildCoordinates sampleChild (some sampleParent) false).child.m_worldPosition
      = sampleParent.m_worldPosition + (⟨1, 0, 0⟩ : MT_Vector3) ∧
    (KX_VertexParentRelation.UpdateChildCoordinates sampleChild (some sampleParent) false).child.m_worldScaling
      = sampleChild.m_localScaling :=
  ⟨rfl,
   (vertex_relation_world_transform sampleChild (some sampleParent) false
      (Or.inr rfl)).2.2.2.2.2 sampleParent rfl rfl rfl,
   (vertex_relation_world_transform sampleChild (some sampleParent) false (Or.inr rfl)).2.2.1⟩

/-! ## DampedFollow -/

/-- C5. At `scaledChild` under `originParent`, Rigid writes the world position `(2, 0, 0)`
while a fresh DampedFollow writes `(1, 0, 0)`: the position target of the slow relation,
`Pp + Ps * (Po * Cp)`, leaves out the child's local scale and local orientation that the
rigid composition `Pp + Ps * Cs * ((Po * Co) * Cp)` applies.  Scale and orientation agree. -/
theorem slow_target_position_differs_from_normal :
    (KX_NormalParentRelation.UpdateChildCoordinates scaledChild (some originParent)
        true).child.m_worldPosition = ⟨2, 0, 0⟩ ∧
    (KX_SlowParentRelation.UpdateChildCoordinates sampleSlerp (KX_SlowParentRelation.New 3)
        scaledChild (some originParent) true).child.m_worldPosition = ⟨1, 0, 0⟩ ∧
    (KX_SlowParentRelation.UpdateChildCoordinates sampleSlerp (KX_SlowParentRelation.New 3)
        scaledChild (some originParent) true).child.m_worldPosition
      ≠ (KX_NormalParentRelation.UpdateChildCoordinates scaledChild (some originParent)
        true).child.m_worldPosition ∧
    (KX_SlowParentRelation.UpdateChildCoordinates sampleSlerp (KX_SlowParentRelation.New 3)
        scaledChild (some originParent) true).child.m_worldScaling
      = (KX_NormalParentRelation.UpdateChildCoordinates scaledChild (some originParent)
        true).child.m_worldScaling ∧
    (KX_SlowParentRelation.UpdateChildCoordinates sampleSlerp (KX_SlowParentRelation.New 3)
        scaledChild (some originParent) true).child.m_worldRotation
      = (KX_NormalParentRelation.UpdateChildCoordinates scaledChild (some originParent)
        true).child.m_worldRotation := by
  have hn : (KX_NormalParentRelation.UpdateChildCoordinates scaledChild (some originParent)
      true).child.m_worldPosition = ⟨2, 0, 0⟩ := by
    show originParent.m_worldPosition + originParent.m_worldScaling * scaledChild.m_localScaling *
      (originParent.m_worldRotation * scaledChild.m_localRotation * scaledChild.m_localPosition)
        = (⟨2, 0, 0⟩ : MT_Vector3)
    simp [originParent, scaledChild, identityRotation, MT_Vector3.add_def, MT_Vector3.mul_def,
      MT_Matrix3x3.mul_vec_def, MT_Matrix3x3.mat_mul_def, MT_Vector3.dot, MT_Matrix3x3.col,
      MT_Vector3.coord]
  have hs : (KX_SlowParentRelation.UpdateChildCoordinates sampleSlerp (KX_SlowParentRelation.New 3)
      scaledChild (some originParent) true).child.m_worldPosition = ⟨1, 0, 0⟩ := by
    show originParent.m_worldPosition + originParent.m_worldScaling *
      (originParent.m_worldRotation * scaledChild.m_localPosition) = (⟨1, 0, 0⟩ : MT_Vector3)
    simp [originParent, scaledChild, identityRotation, MT_Vector3.add_def, MT_Vector3.mul_def,
      MT_Matrix3x3.mul_vec_def, MT_Vector3.dot]
  refine ⟨hn, hs, ?_, rfl, rfl⟩
  rw [hn, hs]
  simp

/-- C6. First call of DampedFollow: with the relation not yet initialized and a parent
present, the call writes exactly the target `child_n_scale`, `child_n_pos`,
`child_n_rotation` computed from the child's local transform and the parent's world
transform; any other uninitialized relation, blend function, incoming flag and child with
the same local transform writes the same world transform, so neither the previous world
transform nor the relaxation factor contributes. -/
theorem slow_first_call_snaps
    (slerpRotation : MT_Matrix3x3 → MT_Matrix3x3 → MT_Scalar → MT_Matrix3x3)
    (self : KX_SlowParentRelation) (child p : SG_Spatial) (parentUpdated : Bool)
    (hfresh : self.m_initialized = false) :
    ((self.UpdateChildCoordinates slerpRotation child (some p) parentUpdated).child.m_worldScaling
        = KX_SlowParentRelation.child_n_scale child p ∧
      (self.UpdateChildCoordinates slerpRotation child (some p) parentUpdated).child.m_worldPosition
        = KX_SlowParentRelation.child_n_pos child p ∧
      (self.UpdateChildCoordinates slerpRotation child (some p) parentUpdated).child.m_worldRotation
        = KX_SlowParentRelation.child_n_rotation child p) ∧
    (∀ (slerpRotation2 : MT_Matrix3x3 → MT_Matrix3x3 → MT_Scalar → MT_Matrix3x3)
        (self2 : KX_SlowParentRelation) (child2 : SG_Spatial) (parentUpdated2 : Bool),
      self2.m_initialized = false →
      child2.m_localScaling = child.m_localScaling →
      child2.m_localPosition = child.m_localPosition →
      child2.m_localRotation = child.m_localRotation →
      (self2.UpdateChildCoordinates slerpRotation2 child2 (some p) parentUpdated2).child.m_worldScaling
        = (self.UpdateChildCoordinates slerpRotation child (some p) parentUpdated).child.m_worldScaling ∧
      (self2.UpdateChildCoordinates slerpRotation2 child2 (some p) parentUpdated2).child.m_worldPosition
        = (self.UpdateChildCoordinates slerpRotation child (some p) parentUpdated).child.m_worldPosition ∧
      (self2.UpdateChildCoordinates slerpRotation2 child2 (some p) parentUpdated2).child.m_worldRotation
        = (self.UpdateChildCoordinates slerpRotation child (some p) parentUpdated).child.m_worldRotation) := by
  constructor
  · simp only [KX_SlowParentRelation.UpdateChildCoordinates, hfresh]
    exact ⟨rfl, rfl, rfl⟩
  · intro slerpRotation2 self2 child2 parentUpdated2 hfresh2 hs hp hr
    simp only [KX_SlowParentRelation.UpdateChildCoordinates, hfresh, hfresh2,
      SG_Spatial.GetLocalScale, SG_Spatial.GetLocalPosition, SG_Spatial.GetLocalOrientation,
      hs, hp, hr]
    exact ⟨rfl, rfl, rfl⟩

/-- C6, at a concrete input: a fresh relation with relaxation 3 puts `sampleChild` under
`sampleParent` on its target. -/
theorem slow_first_call_snaps_witness :
    (KX_SlowParentRelation.New 3).m_initialized = false ∧
    ((KX_SlowParentRelation.New 3).UpdateChildCoordinates sampleSlerp sampleChild
        (some sampleParent) false).child.m_worldPosition
      = KX_SlowParentRelation.child_n_pos sampleChild sampleParent :=
  ⟨rfl,
   (slow_first_call_snaps sampleSlerp (KX_SlowParentRelation.New 3) sampleChild sampleParent
      false rfl).1.2.1⟩

/-- C7. Steady step of DampedFollow: with the relation initialized, relaxation `r ≥ 0` and
a parent present, the call writes `world_scale = (r * previous_world_scale + target_scale) * w`
and `world_position = (r * previous_world_position + target_position) * w` with
`w = 1 / (r + 1)`; for `r = 0` both equal the target. -/
theorem slow_steady_step
    (slerpRotation : MT_Matrix3x3 → MT_Matrix3x3 → MT_Scalar → MT_Matrix3x3)
    (self : KX_SlowParentRelation) (child p : SG_Spatial) (parentUpdated : Bool)
    (hinit : self.m_initialized = true) (_hr : 0 ≤ self.m_relax) :
    (self.UpdateChildCoordinates slerpRotation child (some p) parentUpdated).child.m_worldScaling
      = (self.m_relax * child.m_worldScaling + KX_SlowParentRelation.child_n_scale child p)
          * (1 / (self.m_relax + 1)) ∧
    (self.UpdateChildCoordinates slerpRotation child (some p) parentUpdated).child.m_worldPosition
      = (self.m_relax * child.m_worldPosition + KX_SlowParentRelation.child_n_pos child p)
          * (1 / (self.m_relax + 1)) ∧
    (self.m_relax = 0 →
      (self.UpdateChildCoordinates slerpRotation child (some p) parentUpdated).child.m_worldScaling
        = KX_SlowParentRelation.child_n_scale child p ∧
      (self.UpdateChildCoordinates slerpRotation child (some p) parentUpdated).child.m_worldPosition
        = KX_SlowParentRelation.child_n_pos child p) := by
  have hscale :
      (self.UpdateChildCoordinates slerpRotation child (some p) parentUpdated).child.m_worldScaling
        = (self.m_relax * child.m_worldScaling + KX_SlowParentRelation.child_n_scale child p)
            * (1 / (self.m_relax + 1)) := by
    simp only [KX_SlowParentRelation.UpdateChildCoordinates, hinit]
    rfl
  have hpos :
      (self.UpdateChildCoordinates slerpRotation child (some p) parentUpdated).child.m_worldPosition
        = (self.m_relax * child.m_worldPosition + KX_SlowParentRelation.child_n_pos child p)
            * (1 / (self.m_relax + 1)) := by
    simp only [KX_SlowParentRelation.UpdateChildCoordinates, hinit]
    rfl
  refine ⟨hscale, hpos, ?_⟩
  intro h0
  rw [hscale, hpos, h0]
  simp [MT_Vector3.add_def, MT_Vector3.scalar_mul_def, MT_Vector3.mul_scalar_def]

/-- C7, at a concrete input: an initialized relation with relaxation 3 moves `sampleChild`,
previously at `(9, 9, 9)`, to `(3 * (9, 9, 9) + target) * (1 / 4)`. -/
theorem slow_steady_step_witness :
    (0 : MT_Scalar) ≤ 3 ∧
    (KX_SlowParentRelation.UpdateChildCoordinates sampleSlerp ⟨3, true⟩ sampleChild
        (some sampleParent) false).child.m_worldPosition
      = ((3 : MT_Scalar) * sampleChild.m_worldPosition
            + KX_SlowParentRelation.child_n_pos sampleChild sampleParent)
          * (1 / ((3 : MT_Scalar) + 1)) :=
  ⟨by norm_num,
   (slow_steady_step sampleSlerp ⟨3, true⟩ sampleChild sampleParent false rfl
      (by norm_num)).2.1⟩

/-- C8, refuted as stated: for a root node (no parent) the call returns true, not the value
of `parent != NULL`. -/
theorem slow_root_return_not_parent_present :
    (KX_SlowParentRelation.UpdateChildCoordinates sampleSlerp (KX_SlowParentRelation.New 3)
        sampleChild none false).ret = true ∧
    (KX_SlowParentRelation.UpdateChildCoordinates sampleSlerp (KX_SlowParentRelation.New 3)
        sampleChild none false).ret ≠ (none : Option SG_Spatial).isSome := by
  constructor
  · rfl
  · show true ≠ (none : Option SG_Spatial).isSome
    simp

/-- C8, amended. DampedFollow returns true on every call: for every child, every parent or
none, every relation state and every incoming flag. -/
theorem slow_always_returns_true
    (slerpRotation : MT_Matrix3x3 → MT_Matrix3x3 → MT_Scalar → MT_Matrix3x3)
    (self : KX_SlowParentRelation) (child : SG_Spatial) (parent : Option SG_Spatial)
    (parentUpdated : Bool) :
    (self.UpdateChildCoordinates slerpRotation child parent parentUpdated).ret = true :=
  rfl

/-! ### Scalar facts about the relaxation step -/

theorem relax_fixed_point (r p t : MT_Scalar) (hr : 0 ≤ r)
    (h : (r * p + t) * (1 / (r + 1)) = p) : p = t := by
  have hne : r + 1 ≠ 0 := by positivity
  field_simp at h
  linarith

theorem relax_step_closed (r t d : MT_Scalar) (n : ℕ) (hr : 0 < r) :
    (r * (t + (r / (r + 1)) ^ n * d) + t) * (1 / (r + 1))
      = t + (r / (r + 1)) ^ (n + 1) * d := by
  have hne : r + 1 ≠ 0 := by positivity
  rw [pow_succ]
  field_simp
  ring

theorem relax_ratio_bounds (r : MT_Scalar) (hr : 0 < r) :
    0 ≤ r / (r + 1) ∧ r / (r + 1) < 1 := by
  have hpos : 0 < r + 1 := by positivity
  constructor
  · positivity
  · rw [div_lt_one hpos]
    linarith

/-- One steady call keeps the relation and the child's local position, and moves the world
position to `(r * previous + target) * (1 / (r + 1))`. -/
theorem slow_steady_call
    (slerpRotation : MT_Matrix3x3 → MT_Matrix3x3 → MT_Scalar → MT_Matrix3x3)
    (self : KX_SlowParentRelation) (child p : SG_Spatial) (parentUpdated : Bool)
    (hinit : self.m_initialized = true) :
    (self.UpdateChildCoordinates slerpRotation child (some p) parentUpdated).relation = self ∧
    (self.UpdateChildCoordinates slerpRotation child (some p) parentUpdated).child.m_localPosition
      = child.m_localPosition ∧
    (self.UpdateChildCoordinates slerpRotation child (some p) parentUpdated).child.m_worldPosition
      = (self.m_relax * child.m_worldPosition + KX_SlowParentRelation.child_n_pos child p)
          * (1 / (self.m_relax + 1)) := by
  simp only [KX_SlowParentRelation.UpdateChildCoordinates, hinit]
  exact ⟨rfl, rfl, rfl⟩

/-- The target position depends on the child only through its local position. -/
theorem child_n_pos_congr (c1 c2 p : SG_Spatial) (h : c1.m_localPosition = c2.m_localPosition) :
    KX_SlowParentRelation.child_n_pos c1 p = KX_SlowParentRelation.child_n_pos c2 p := by
  simp only [KX_SlowParentRelation.child_n_pos, SG_Spatial.GetLocalPosition, h]

/-! ### The steady step in rounded arithmetic -/

/-- With the identity for rounding, the rounded method is the method in exact arithmetic. -/
theorem rounded_update_exact :
    Rounded.UpdateChildCoordinates id = KX_SlowParentRelation.UpdateChildCoordinates :=
  rfl

theorem int_log_two_eq (x : ℚ) (e : ℤ) (hx : 0 < x) (hlo : (2 : ℚ) ^ e ≤ x)
    (hhi : x < (2 : ℚ) ^ (e + 1)) : Int.log 2 x = e := by
  have h1 : e ≤ Int.log 2 x :=
    (Int.zpow_le_iff_le_log (by norm_num) hx).mp (by simpa using hlo)
  have h2 : Int.log 2 x < e + 1 :=
    (Int.lt_zpow_iff_log_lt (by norm_num) hx).mp (by simpa using hhi)
  omega

/-- Evaluation of the rounding at a positive `x` in the binade of `2 ^ e`, with unit in the
last place `u`, whose quotient by `u` lies less than one half above the integer `n`. -/
theorem roundNearestEven_down (prec : ℕ) (x u : ℚ) (e n : ℤ) (hx : 0 < x)
    (hlo : (2 : ℚ) ^ e ≤ x) (hhi : x < (2 : ℚ) ^ (e + 1))
    (hu : (2 : ℚ) ^ (e - ((prec : ℤ) - 1)) = u)
    (hn0 : (n : ℚ) ≤ x / u) (hn1 : x / u - n < 1 / 2) :
    roundNearestEven prec x = n * u := by
  have hlog : Int.log 2 |x| = e := by
    rw [abs_of_pos hx]
    exact int_log_two_eq x e hx hlo hhi
  have hfloor : ⌊x / u⌋ = n := Int.floor_eq_iff.mpr ⟨hn0, by linarith⟩
  simp only [roundNearestEven, hx.ne', if_false, hlog, hu, hfloor, hn1, if_true]

theorem roundNearestEven_zero (prec : ℕ) : roundNearestEven prec 0 = 0 := by
  simp [roundNearestEven]

/-- The steady step with relaxation 3 on `nearChild prec` under `originParent`, for a
rounding that keeps 0, 1, 4 and 1/4, takes `3 * (1 - 2 ^ (-prec))` to `3 - 4 * 2 ^ (-prec)`
and keeps the two numbers that follow: the target position is `(1, 0, 0)` and the world
position is written back unchanged. -/
theorem rounded_step_stalls_of (fl : ℚ → ℚ) (prec : ℕ)
    (slerpRotation : MT_Matrix3x3 → MT_Matrix3x3 → MT_Scalar → MT_Matrix3x3)
    (h0 : fl 0 = 0) (h1 : fl 1 = 1) (h4 : fl 4 = 4) (hq : fl (1 / 4) = 1 / 4)
    (ha : fl (3 * (1 - 1 / 2 ^ prec)) = 3 - 4 / 2 ^ prec)
    (hb : fl (3 - 4 / 2 ^ prec + 1) = 4 - 4 / 2 ^ prec)
    (hc : fl ((4 - 4 / 2 ^ prec) * (1 / 4)) = 1 - 1 / 2 ^ prec) :
    Rounded.child_n_pos fl (nearChild prec) originParent = ⟨1, 0, 0⟩ ∧
    (Rounded.UpdateChildCoordinates fl slerpRotation ⟨3, true⟩ (nearChild prec)
        (some originParent) false).child.m_worldPosition
      = (nearChild prec).m_worldPosition := by
  have ht : Rounded.child_n_pos fl (nearChild prec) originParent = ⟨1, 0, 0⟩ := by
    simp [Rounded.child_n_pos, Rounded.add, Rounded.mul, Rounded.mulVec, Rounded.dot,
      SG_Spatial.GetWorldPosition, SG_Spatial.GetWorldScaling, SG_Spatial.GetWorldOrientation,
      SG_Spatial.GetLocalPosition, nearChild, originParent, identityRotation, h0, h1]
  have hw : fl (1 / fl ((3 : ℚ) + 1)) = 1 / 4 := by
    rw [show (3 : ℚ) + 1 = 4 by norm_num, h4, hq]
  refine ⟨ht, ?_⟩
  show Rounded.mulScalar fl
      (Rounded.add fl (Rounded.scalarMul fl 3 (nearChild prec).m_worldPosition)
        (Rounded.child_n_pos fl (nearChild prec) originParent))
      (fl (1 / fl ((3 : ℚ) + 1))) = (nearChild prec).m_worldPosition
  rw [ht, hw]
  show (⟨fl (fl (fl (3 * (1 - 1 / 2 ^ prec)) + 1) * (1 / 4)),
      fl (fl (fl (3 * 0) + 0) * (1 / 4)),
      fl (fl (fl (3 * 0) + 0) * (1 / 4))⟩ : MT_Vector3) = ⟨1 - 1 / 2 ^ prec, 0, 0⟩
  rw [ha, hb, hc]
  simp [h0]

/-- C9, refuted as stated: in the floating-point arithmetic of the source a child that is
off target can be left where it is.  With relaxation 3, target position `(1, 0, 0)` and
previous world position `(1 - 2 ^ (-53), 0, 0)` in double precision (and
`(1 - 2 ^ (-24), 0, 0)` in single precision), `3 * p` rounds to `3 - 2 ^ (-51)`, adding 1
gives `4 - 2 ^ (-51)`, and the product with the weight `1 / 4` is the previous position:
both flags are false, the position differs from the target, and the call does not change
it. -/
theorem slow_rounded_step_stalls :
    ((nearChild 53).m_modified = false ∧
      (nearChild 53).m_worldPosition
        ≠ Rounded.child_n_pos (roundNearestEven 53) (nearChild 53) originParent ∧
      (Rounded.UpdateChildCoordinates (roundNearestEven 53) sampleSlerp ⟨3, true⟩
          (nearChild 53) (some originParent) false).child.m_worldPosition
        = (nearChild 53).m_worldPosition) ∧
    ((nearChild 24).m_modified = false ∧
      (nearChild 24).m_worldPosition
        ≠ Rounded.child_n_pos (roundNearestEven 24) (nearChild 24) originParent ∧
      (Rounded.UpdateChildCoordinates (roundNearestEven 24) sampleSlerp ⟨3, true⟩
          (nearChild 24) (some originParent) false).child.m_worldPosition
        = (nearChild 24).m_worldPosition) := by
  have h53 := rounded_step_stalls_of (roundNearestEven 53) 53 sampleSlerp
    (roundNearestEven_zero 53)
    (by
      rw [roundNearestEven_down 53 1 (1 / 2 ^ 52) 0 (2 ^ 52) (by norm_num) (by norm_num)
        (by norm_num) (by norm_num) (by norm_num) (by norm_num)]
      norm_num)
    (by
      rw [roundNearestEven_down 53 4 (1 / 2 ^ 50) 2 (2 ^ 52) (by norm_num) (by norm_num)
        (by norm_num) (by norm_num) (by norm_num) (by norm_num)]
      norm_num)
    (by
      rw [roundNearestEven_down 53 (1 / 4) (1 / 2 ^ 54) (-2) (2 ^ 52) (by norm_num)
        (by norm_num) (by norm_num) (by norm_num) (by norm_num) (by norm_num)]
      norm_num)
    (by
      rw [roundNearestEven_down 53 _ (1 / 2 ^ 51) 1 (3 * 2 ^ 51 - 1) (by norm_num)
        (by norm_num) (by norm_num) (by norm_num) (by norm_num) (by norm_num)]
      norm_num)
    (by
      rw [roundNearestEven_down 53 _ (1 / 2 ^ 51) 1 (2 ^ 53 - 1) (by norm_num)
        (by norm_num) (by norm_num) (by norm_num) (by norm_num) (by norm_num)]
      norm_num)
    (by
      rw [roundNearestEven_down 53 _ (1 / 2 ^ 53) (-1) (2 ^ 53 - 1) (by norm_num)
        (by norm_num) (by norm_num) (by norm_num) (by norm_num) (by norm_num)]
      norm_num)
  have h24 := rounded_step_stalls_of (roundNearestEven 24) 24 sampleSlerp
    (roundNearestEven_zero 24)
    (by
      rw [roundNearestEven_down 24 1 (1 / 2 ^ 23) 0 (2 ^ 23) (by norm_num) (by norm_num)
        (by norm_num) (by norm_num) (by norm_num) (by norm_num)]
      norm_num)
    (by
      rw [roundNearestEven_down 24 4 (1 / 2 ^ 21) 2 (2 ^ 23) (by norm_num) (by norm_num)
        (by norm_num) (by norm_num) (by norm_num) (by norm_num)]
      norm_num)
    (by
      rw [roundNearestEven_down 24 (1 / 4) (1 / 2 ^ 25) (-2) (2 ^ 23) (by norm_num)
        (by norm_num) (by norm_num) (by norm_num) (by norm_num) (by norm_num)]
      norm_num)
    (by
      rw [roundNearestEven_down 24 _ (1 / 2 ^ 22) 1 (3 * 2 ^ 22 - 1) (by norm_num)
        (by norm_num) (by norm_num) (by norm_num) (by norm_num) (by norm_num)]
      norm_num)
    (by
      rw [roundNearestEven_down 24 _ (1 / 2 ^ 22) 1 (2 ^ 24 - 1) (by norm_num)
        (by norm_num) (by norm_num) (by norm_num) (by norm_num) (by norm_num)]
      norm_num)
    (by
      rw [roundNearestEven_down 24 _ (1 / 2 ^ 24) (-1) (2 ^ 24 - 1) (by norm_num)
        (by norm_num) (by norm_num) (by norm_num) (by norm_num) (by norm_num)]
      norm_num)
  refine ⟨⟨rfl, ?_, h53.2⟩, ⟨rfl, ?_, h24.2⟩⟩
  · rw [h53.1]
    show (⟨1 - 1 / 2 ^ 53, 0, 0⟩ : MT_Vector3) ≠ ⟨1, 0, 0⟩
    simp
  · rw [h24.1]
    show (⟨1 - 1 / 2 ^ 24, 0, 0⟩ : MT_Vector3) ≠ ⟨1, 0, 0⟩
    simp

/-- C9, amended. DampedFollow always re-evaluates: the whole outcome of a call (relation,
child, flag, return value) is the same for every incoming `parentUpdated` and every value
of the child's modified flag, in exact arithmetic and with any rounding; and in exact
arithmetic, for an initialized relation with `r ≥ 0`, a present parent and a child whose
world position is not yet the target position, a call with `parentUpdated = false` on the
unmodified child still changes the child's world position. -/
theorem slow_always_reevaluates
    (slerpRotation : MT_Matrix3x3 → MT_Matrix3x3 → MT_Scalar → MT_Matrix3x3)
    (self : KX_SlowParentRelation) (child p : SG_Spatial)
    (hinit : self.m_initialized = true) (hr : 0 ≤ self.m_relax)
    (_hclean : child.m_modified = false)
    (hfar : child.m_worldPosition ≠ KX_SlowParentRelation.child_n_pos child p) :
    (∀ (rel : KX_SlowParentRelation) (parent : Option SG_Spatial) (pu1 pu2 m1 m2 : Bool),
      rel.UpdateChildCoordinates slerpRotation { child with m_modified := m1 } parent pu1
        = rel.UpdateChildCoordinates slerpRotation { child with m_modified := m2 } parent pu2) ∧
    (∀ (fl : ℚ → ℚ) (rel : KX_SlowParentRelation) (parent : Option SG_Spatial)
        (pu1 pu2 m1 m2 : Bool),
      Rounded.UpdateChildCoordinates fl slerpRotation rel { child with m_modified := m1 }
          parent pu1
        = Rounded.UpdateChildCoordinates fl slerpRotation rel { child with m_modified := m2 }
          parent pu2) ∧
    (self.UpdateChildCoordinates slerpRotation child (some p) false).child.m_worldPosition
      ≠ child.m_worldPosition := by
  refine ⟨?_, ?_, ?_⟩
  · intro rel parent pu1 pu2 m1 m2
    rfl
  · intro fl rel parent pu1 pu2 m1 m2
    rfl
  · intro hsame
    rw [(slow_steady_call slerpRotation self child p false hinit).2.2] at hsame
    apply hfar
    have hx := congrArg MT_Vector3.x hsame
    have hy := congrArg MT_Vector3.y hsame
    have hz := congrArg MT_Vector3.z hsame
    simp only [MT_Vector3.add_def, MT_Vector3.scalar_mul_def, MT_Vector3.mul_scalar_def] at hx hy hz
    have ex := relax_fixed_point _ _ _ hr hx
    have ey := relax_fixed_point _ _ _ hr hy
    have ez := relax_fixed_point _ _ _ hr hz
    cases hc : child.m_worldPosition with
    | mk a b c =>
      cases ht : KX_SlowParentRelation.child_n_pos child p with
      | mk a2 b2 c2 =>
        rw [hc, ht] at ex ey ez
        simp only at ex ey ez
        rw [ex, ey, ez]

/-- C9, at a concrete input: the unmodified node `originParent` in the role of the child,
sitting at the origin under `sampleParent`, is moved by an initialized relation with
relaxation 3 although both flags are false. -/
theorem slow_always_reevaluates_witness :
    originParent.m_modified = false ∧
    (KX_SlowParentRelation.UpdateChildCoordinates sampleSlerp ⟨3, true⟩ originParent
        (some sampleParent) false).child.m_worldPosition
      ≠ originParent.m_worldPosition :=
  ⟨rfl,
   (slow_always_reevaluates sampleSlerp ⟨3, true⟩ originParent sampleParent rfl
      (by norm_num) rfl
      (by
        simp [KX_SlowParentRelation.child_n_pos, SG_Spatial.GetWorldPosition,
          SG_Spatial.GetWorldScaling, SG_Spatial.GetWorldOrientation,
          SG_Spatial.GetLocalPosition, originParent, sampleParent, quarterTurnZ,
          MT_Vector3.add_def, MT_Vector3.mul_def, MT_Matrix3x3.mul_vec_def,
          MT_Vector3.dot])).2.2⟩

/-! ### Repeated calls -/

theorem coord_offset (t d : MT_Vector3) (s : MT_Scalar) (i : Fin 3) :
    (t + s * d).coord i - t.coord i = s * d.coord i := by
  fin_cases i <;>
    simp [MT_Vector3.coord, MT_Vector3.add_def, MT_Vector3.scalar_mul_def]

theorem coord_sub (a b : MT_Vector3) (i : Fin 3) :
    (a - b).coord i = a.coord i - b.coord i := by
  fin_cases i <;> simp [MT_Vector3.coord, MT_Vector3.sub_def]

/-- After `n` steady calls under a fixed parent the relation is unchanged, the child's local
position is unchanged, and the world position is `t + (r / (r + 1)) ^ n * (p0 - t)`. -/
theorem repeatUpdate_steady
    (slerpRotation : MT_Matrix3x3 → MT_Matrix3x3 → MT_Scalar → MT_Matrix3x3)
    (self : KX_SlowParentRelation) (child p : SG_Spatial) (flags : ℕ → Bool)
    (hinit : self.m_initialized = true) (hr : 0 < self.m_relax) (n : ℕ) :
    (KX_SlowParentRelation.repeatUpdate slerpRotation (some p) flags n (self, child)).1 = self ∧
    (KX_SlowParentRelation.repeatUpdate slerpRotation (some p) flags n
        (self, child)).2.m_localPosition = child.m_localPosition ∧
    (KX_SlowParentRelation.repeatUpdate slerpRotation (some p) flags n
        (self, child)).2.m_worldPosition
      = KX_SlowParentRelation.child_n_pos child p
          + (self.m_relax / (self.m_relax + 1)) ^ n
            * (child.m_worldPosition - KX_SlowParentRelation.child_n_pos child p) := by
  induction n with
  | zero =>
    refine ⟨rfl, rfl, ?_⟩
    show child.m_worldPosition = _
    simp [MT_Vector3.add_def, MT_Vector3.scalar_mul_def, MT_Vector3.sub_def]
  | succ k ih =>
    obtain ⟨hrel, hloc, hpos⟩ := ih
    have hinit2 : (KX_SlowParentRelation.repeatUpdate slerpRotation (some p) flags k
        (self, child)).1.m_initialized = true := by rw [hrel]; exact hinit
    have hcall := slow_steady_call slerpRotation
      (KX_SlowParentRelation.repeatUpdate slerpRotation (some p) flags k (self, child)).1
      (KX_SlowParentRelation.repeatUpdate slerpRotation (some p) flags k (self, child)).2
      p (flags k) hinit2
    obtain ⟨c1, c2, c3⟩ := hcall
    refine ⟨?_, ?_, ?_⟩
    · show (KX_SlowParentRelation.UpdateChildCoordinates slerpRotation _ _ (some p) (flags k)).relation
        = self
      rw [c1, hrel]
    · show (KX_SlowParentRelation.UpdateChildCoordinates slerpRotation _ _ (some p)
        (flags k)).child.m_localPosition = child.m_localPosition
      rw [c2, hloc]
    · show (KX_SlowParentRelation.UpdateChildCoordinates slerpRotation _ _ (some p)
        (flags k)).child.m_worldPosition = _
      rw [c3, hrel, hpos, child_n_pos_congr _ child p hloc]
      simp only [MT_Vector3.add_def, MT_Vector3.scalar_mul_def, MT_Vector3.mul_scalar_def,
        MT_Vector3.sub_def, MT_Vector3.mk.injEq]
      exact ⟨relax_step_closed _ _ _ k hr, relax_step_closed _ _ _ k hr,
        relax_step_closed _ _ _ k hr⟩

/-- C10. Convergence of DampedFollow under a fixed target: from an initialized relation
with relaxation `r > 0` and any previous world position `p0`, after `n` calls the world
position is `t + (r / (r + 1)) ^ n * (p0 - t)`; each component's distance to the target
does not increase from one call to the next and eventually stays below every positive
bound; and a fresh relation with the same relaxation puts the world position exactly on
the target with its first call. -/
theorem slow_convergence
    (slerpRotation : MT_Matrix3x3 → MT_Matrix3x3 → MT_Scalar → MT_Matrix3x3)
    (self : KX_SlowParentRelation) (child p : SG_Spatial) (flags : ℕ → Bool)
    (hinit : self.m_initialized = true) (hr : 0 < self.m_relax) :
    (∀ n : ℕ,
      (KX_SlowParentRelation.repeatUpdate slerpRotation (some p) flags n
          (self, child)).2.m_worldPosition
        = KX_SlowParentRelation.child_n_pos child p
            + (self.m_relax / (self.m_relax + 1)) ^ n
              * (child.m_worldPosition - KX_SlowParentRelation.child_n_pos child p)) ∧
    (∀ (n : ℕ) (i : Fin 3),
      |(KX_SlowParentRelation.repeatUpdate slerpRotation (some p) flags (n + 1)
            (self, child)).2.m_worldPosition.coord i
          - (KX_SlowParentRelation.child_n_pos child p).coord i|
        ≤ |(KX_SlowParentRelation.repeatUpdate slerpRotation (some p) flags n
            (self, child)).2.m_worldPosition.coord i
          - (KX_SlowParentRelation.child_n_pos child p).coord i|) ∧
    (∀ (i : Fin 3) (ε : MT_Scalar), 0 < ε → ∃ N : ℕ, ∀ n : ℕ, N ≤ n →
      |(KX_SlowParentRelation.repeatUpdate slerpRotation (some p) flags n
            (self, child)).2.m_worldPosition.coord i
          - (KX_SlowParentRelation.child_n_pos child p).coord i| < ε) ∧
    (∀ parentUpdated : Bool,
      ((KX_SlowParentRelation.New self.m_relax).UpdateChildCoordinates slerpRotation child
          (some p) parentUpdated).child.m_worldPosition
        = KX_SlowParentRelation.child_n_pos child p) := by
  obtain ⟨hq0, hq1⟩ := relax_ratio_bounds self.m_relax hr
  have hclosed := fun n =>
    (repeatUpdate_steady slerpRotation self child p flags hinit hr n).2.2
  have hdist : ∀ (n : ℕ) (i : Fin 3),
      |(KX_SlowParentRelation.repeatUpdate slerpRotation (some p) flags n
            (self, child)).2.m_worldPosition.coord i
          - (KX_SlowParentRelation.child_n_pos child p).coord i|
        = (self.m_relax / (self.m_relax + 1)) ^ n
            * |child.m_worldPosition.coord i
                - (KX_SlowParentRelation.child_n_pos child p).coord i| := by
    intro n i
    rw [hclosed n, coord_offset, coord_sub, abs_mul, abs_of_nonneg (pow_nonneg hq0 n)]
  refine ⟨hclosed, ?_, ?_, ?_⟩
  · intro n i
    rw [hdist (n + 1) i, hdist n i, pow_succ, mul_assoc]
    have hnn : 0 ≤ (self.m_relax / (self.m_relax + 1)) ^ n
        * |child.m_worldPosition.coord i
            - (KX_SlowParentRelation.child_n_pos child p).coord i| :=
      mul_nonneg (pow_nonneg hq0 n) (abs_nonneg _)
    calc (self.m_relax / (self.m_relax + 1)) ^ n
          * (self.m_relax / (self.m_relax + 1)
            * |child.m_worldPosition.coord i
                - (KX_SlowParentRelation.child_n_pos child p).coord i|)
        = self.m_relax / (self.m_relax + 1)
          * ((self.m_relax / (self.m_relax + 1)) ^ n
            * |child.m_worldPosition.coord i
                - (KX_SlowParentRelation.child_n_pos child p).coord i|) := by ring
      _ ≤ 1 * ((self.m_relax / (self.m_relax + 1)) ^ n
            * |child.m_worldPosition.coord i
                - (KX_SlowParentRelation.child_n_pos child p).coord i|) :=
          mul_le_mul_of_nonneg_right hq1.le hnn
      _ = _ := one_mul _
  · intro i ε hε
    have hd : 0 ≤ |child.m_worldPosition.coord i
        - (KX_SlowParentRelation.child_n_pos child p).coord i| := abs_nonneg _
    have hd1 : 0 < |child.m_worldPosition.coord i
        - (KX_SlowParentRelation.child_n_pos child p).coord i| + 1 := by linarith
    obtain ⟨N, hN⟩ := exists_pow_lt_of_lt_one (div_pos hε hd1) hq1
    refine ⟨N, fun n hn => ?_⟩
    rw [hdist n i]
    have hpow : (self.m_relax / (self.m_relax + 1)) ^ n
        ≤ (self.m_relax / (self.m_relax + 1)) ^ N :=
      pow_le_pow_of_le_one hq0 hq1.le hn
    have hNn : 0 ≤ (self.m_relax / (self.m_relax + 1)) ^ N := pow_nonneg hq0 N
    rw [lt_div_iff₀ hd1] at hN
    nlinarith [mul_le_mul_of_nonneg_right hpow hd]
  · intro parentUpdated
    rfl

/-- C10, at a concrete input: relaxation 3, `sampleChild` under `sampleParent`; after two
calls the world position is `t + (3 / 4) ^ 2 * (p0 - t)`. -/
theorem slow_convergence_witness :
    (0 : MT_Scalar) < 3 ∧
    (KX_SlowParentRelation.repeatUpdate sampleSlerp (some sampleParent) (fun _ => false) 2
        (⟨3, true⟩, sampleChild)).2.m_worldPosition
      = KX_SlowParentRelation.child_n_pos sampleChild sampleParent
          + ((3 : MT_Scalar) / (3 + 1)) ^ 2
            * (sampleChild.m_worldPosition
                - KX_SlowParentRelation.child_n_pos sampleChild sampleParent) :=
  ⟨by norm_num,
   (slow_convergence sampleSlerp ⟨3, true⟩ sampleChild sampleParent (fun _ => false) rfl
      (by norm_num)).1 2⟩

/-! ## The composition law -/

/-- C12, refuted as stated: on the fast path a root keeps its stale world transform.  The
unmodified root `unitChild`, called with `parentUpdated = false`, keeps world position
`(0, 0, 0)` although its local position is `(1, 0, 0)`. -/
theorem normal_root_fast_path_keeps_world :
    unitChild.m_modified = false ∧
    (KX_NormalParentRelation.UpdateChildCoordinates unitChild none false).child.m_worldPosition
      = ⟨0, 0, 0⟩ ∧
    (KX_NormalParentRelation.UpdateChildCoordinates unitChild none false).child.m_worldPosition
      ≠ unitChild.m_localPosition := by
  refine ⟨rfl, rfl, ?_⟩
  show (⟨0, 0, 0⟩ : MT_Vector3) ≠ ⟨1, 0, 0⟩
  simp

/-- C12, amended. Identity at root: for a node with no parent, after a call of Rigid that
does not take the fast path (`parentUpdated` true or the node modified), world position,
scale and orientation equal the local ones, whatever the previous world transform. -/
theorem normal_root_identity
    (child : SG_Spatial) (parentUpdated : Bool)
    (hwork : parentUpdated = true ∨ child.m_modified = true) :
    (KX_NormalParentRelation.UpdateChildCoordinates child none parentUpdated).child.m_worldPosition
      = child.m_localPosition ∧
    (KX_NormalParentRelation.UpdateChildCoordinates child none parentUpdated).child.m_worldScaling
      = child.m_localScaling ∧
    (KX_NormalParentRelation.UpdateChildCoordinates child none parentUpdated).child.m_worldRotation
      = child.m_localRotation := by
  have hguard : (!parentUpdated && !child.IsModified) = false := by
    rcases hwork with h | h <;> simp [SG_Spatial.IsModified, h]
  simp only [KX_NormalParentRelation.UpdateChildCoordinates, hguard]
  exact ⟨rfl, rfl, rfl⟩

/-- C12, at a concrete input: the modified node `sampleChild` as a root. -/
theorem normal_root_identity_witness :
    sampleChild.m_modified = true ∧
    (KX_NormalParentRelation.UpdateChildCoordinates sampleChild none false).child.m_worldPosition
      = sampleChild.m_localPosition :=
  ⟨rfl, (normal_root_identity sampleChild false (Or.inr rfl)).1⟩

/-! ## The state of the slow relation -/

/-- C13. Clone of DampedFollow: for every relation object, initialized or not, `NewCopy`
returns a pointer to another object, whose relaxation factor is the original's and whose
`m_initialized` is false; cloning changes no object that was there before, the original in
particular, and the original stays as it was when the copy's fields are overwritten (its
relaxation factor or its state) or the copy is used for a call. -/
theorem slow_clone_fresh_and_independent
    (slerpRotation : MT_Matrix3x3 → MT_Matrix3x3 → MT_Scalar → MT_Matrix3x3)
    (h : RelationHeap) (self : Nat) (obj : KX_SlowParentRelation)
    (hobj : h.read self = some obj) :
    ∃ (h1 : RelationHeap) (copy : Nat),
      h.NewCopyAt self = some (h1, copy) ∧
      copy ≠ self ∧
      h1.read copy = some { m_relax := obj.m_relax, m_initialized := false } ∧
      (∀ (p : Nat) (o : KX_SlowParentRelation), h.read p = some o → h1.read p = some o) ∧
      h1.read self = some obj ∧
      (∀ c : KX_SlowParentRelation, (h1.store copy c).read self = some obj) ∧
      (∀ (child : SG_Spatial) (parent : Option SG_Spatial) (parentUpdated : Bool),
        (h1.UpdateAt slerpRotation copy child parent parentUpdated).read self = some obj) := by
  have hlt : self < h.objects.length := by
    obtain ⟨hl, _⟩ := List.getElem?_eq_some.mp hobj
    exact hl
  have hne : h.objects.length ≠ self := by omega
  have hold : ∀ (p : Nat) (o : KX_SlowParentRelation), h.read p = some o →
      (h.allocate obj.NewCopy).1.read p = some o := by
    intro p o hp
    obtain ⟨hl, _⟩ := List.getElem?_eq_some.mp hp
    show (h.objects ++ [obj.NewCopy])[p]? = some o
    rw [List.getElem?_append_left hl]
    exact hp
  have hcopy : (h.allocate obj.NewCopy).1.read h.objects.length = some obj.NewCopy := by
    show (h.objects ++ [obj.NewCopy])[h.objects.length]? = some obj.NewCopy
    rw [List.getElem?_append_right (le_refl _)]
    simp
  refine ⟨(h.allocate obj.NewCopy).1, h.objects.length, ?_, hne, hcopy, hold,
    hold self obj hobj, ?_, ?_⟩
  · simp only [RelationHeap.NewCopyAt, hobj]
    rfl
  · intro c
    show ((h.allocate obj.NewCopy).1.objects.set h.objects.length c)[self]? = some obj
    rw [List.getElem?_set_ne hne]
    exact hold self obj hobj
  · intro child parent parentUpdated
    simp only [RelationHeap.UpdateAt, hcopy]
    show ((h.allocate obj.NewCopy).1.objects.set h.objects.length _)[self]? = some obj
    rw [List.getElem?_set_ne hne]
    exact hold self obj hobj

/-- C13, at a concrete input: a heap holding one initialized relation with relaxation 3, at
address 0. -/
theorem slow_clone_fresh_and_independent_witness :
    ∃ (h1 : RelationHeap) (copy : Nat),
      RelationHeap.NewCopyAt { objects := [⟨3, true⟩] } 0 = some (h1, copy) ∧
      copy ≠ 0 ∧
      h1.read copy = some { m_relax := 3, m_initialized := false } ∧
      h1.read 0 = some ⟨3, true⟩ ∧
      (∀ c : KX_SlowParentRelation, (h1.store copy c).read 0 = some ⟨3, true⟩) :=
  match slow_clone_fresh_and_independent sampleSlerp { objects := [⟨3, true⟩] } 0 ⟨3, true⟩
      rfl with
  | ⟨h1, copy, e1, e2, e3, _, e5, e6, _⟩ => ⟨h1, copy, e1, e2, e3, e5, e6⟩

/-- C14. A root DampedFollow node bypasses the filter: with no parent, whatever the
relation's state and relaxation factor, the call writes world position, scale and
orientation equal to the local ones; any child with the same local transform gets the same
world transform, so the previous world transform does not contribute. -/
theorem slow_root_bypasses_filter
    (slerpRotation : MT_Matrix3x3 → MT_Matrix3x3 → MT_Scalar → MT_Matrix3x3)
    (self : KX_SlowParentRelation) (child : SG_Spatial) (parentUpdated : Bool) :
    ((self.UpdateChildCoordinates slerpRotation child none parentUpdated).child.m_worldPosition
        = child.m_localPosition ∧
      (self.UpdateChildCoordinates slerpRotation child none parentUpdated).child.m_worldScaling
        = child.m_localScaling ∧
      (self.UpdateChildCoordinates slerpRotation child none parentUpdated).child.m_worldRotation
        = child.m_localRotation) ∧
    (∀ (self2 : KX_SlowParentRelation) (child2 : SG_Spatial) (parentUpdated2 : Bool),
      child2.localTransform = child.localTransform →
      (self2.UpdateChildCoordinates slerpRotation child2 none parentUpdated2).child.worldTransform
        = (self.UpdateChildCoordinates slerpRotation child none
            parentUpdated).child.worldTransform) := by
  refine ⟨⟨rfl, rfl, rfl⟩, ?_⟩
  intro self2 child2 parentUpdated2 h
  show child2.localTransform = child.localTransform
  exact h

/-- C14, at a concrete input: an initialized relation with relaxation 3 on `sampleChild` as
a root, compared with a fresh relation on the same node with its world transform replaced. -/
theorem slow_root_bypasses_filter_witness :
    (KX_SlowParentRelation.UpdateChildCoordinates sampleSlerp (KX_SlowParentRelation.New 0)
        { sampleChild with m_worldPosition := ⟨0, 0, 0⟩ } none true).child.worldTransform
      = (KX_SlowParentRelation.UpdateChildCoordinates sampleSlerp ⟨3, true⟩ sampleChild none
          false).child.worldTransform :=
  (slow_root_bypasses_filter sampleSlerp ⟨3, true⟩ sampleChild false).2
    (KX_SlowParentRelation.New 0) { sampleChild with m_worldPosition := ⟨0, 0, 0⟩ } true rfl

/-- C15, refuted as stated: a first call with no parent leaves a fresh relation
uninitialized. -/
theorem slow_root_call_stays_fresh :
    (KX_SlowParentRelation.New 3).m_initialized = false ∧
    (KX_SlowParentRelation.UpdateChildCoordinates sampleSlerp (KX_SlowParentRelation.New 3)
        sampleChild none false).relation.m_initialized = false :=
  ⟨rfl, rfl⟩

/-- C15, amended. Uninitialized to Steady: for a relation with `m_initialized = false`, a
call with a parent present leaves the relation marked initialized. -/
theorem slow_first_parent_call_marks_initialized
    (slerpRotation : MT_Matrix3x3 → MT_Matrix3x3 → MT_Scalar → MT_Matrix3x3)
    (self : KX_SlowParentRelation) (child p : SG_Spatial) (parentUpdated : Bool)
    (hfresh : self.m_initialized = false) :
    (self.UpdateChildCoordinates slerpRotation child (some p)
        parentUpdated).relation.m_initialized = true := by
  simp only [KX_SlowParentRelation.UpdateChildCoordinates, hfresh]
  rfl

/-- C15, at a concrete input: a fresh relation with relaxation 3, `sampleChild` under
`sampleParent`. -/
theorem slow_first_parent_call_marks_initialized_witness :
    (KX_SlowParentRelation.New 3).m_initialized = false ∧
    (KX_SlowParentRelation.UpdateChildCoordinates sampleSlerp (KX_SlowParentRelation.New 3)
        sampleChild (some sampleParent) false).relation.m_initialized = true :=
  ⟨rfl,
   slow_first_parent_call_marks_initialized sampleSlerp (KX_SlowParentRelation.New 3)
     sampleChild sampleParent false rfl⟩

/-- One call keeps the relaxation factor and never clears the initialized flag. -/
theorem slow_call_keeps_state
    (slerpRotation : MT_Matrix3x3 → MT_Matrix3x3 → MT_Scalar → MT_Matrix3x3)
    (self : KX_SlowParentRelation) (child : SG_Spatial) (parent : Option SG_Spatial)
    (parentUpdated : Bool) :
    (self.UpdateChildCoordinates slerpRotation child parent parentUpdated).relation.m_relax
      = self.m_relax ∧
    (self.m_initialized = true →
      (self.UpdateChildCoordinates slerpRotation child parent
        parentUpdated).relation.m_initialized = true) := by
  cases parent with
  | none => exact ⟨rfl, fun h => h⟩
  | some p =>
    cases hi : self.m_initialized with
    | true =>
      simp only [KX_SlowParentRelation.UpdateChildCoordinates, hi]
      exact ⟨rfl, fun _ => hi⟩
    | false =>
      simp only [KX_SlowParentRelation.UpdateChildCoordinates, hi]
      exact ⟨rfl, fun h => by simp at h⟩

/-- C16. The state of a DampedFollow relation is never reset by a call: over every sequence
of calls on one instance, with any children, parents or none, and flags, the relaxation
factor keeps its value and an initialized relation stays initialized; `New` and `NewCopy`
give `m_initialized = false`. -/
theorem slow_state_never_reset
    (slerpRotation : MT_Matrix3x3 → MT_Matrix3x3 → MT_Scalar → MT_Matrix3x3)
    (calls : List (SG_Spatial × Option SG_Spatial × Bool)) (self : KX_SlowParentRelation) :
    (KX_SlowParentRelation.afterCalls slerpRotation calls self).m_relax = self.m_relax ∧
    (self.m_initialized = true →
      (KX_SlowParentRelation.afterCalls slerpRotation calls self).m_initialized = true) ∧
    (∀ r : MT_Scalar, (KX_SlowParentRelation.New r).m_initialized = false) ∧
    self.NewCopy.m_initialized = false := by
  refine ⟨?_, ?_, fun _ => rfl, rfl⟩
  · induction calls generalizing self with
    | nil => rfl
    | cons c rest ih =>
      obtain ⟨child, parent, parentUpdated⟩ := c
      show (KX_SlowParentRelation.afterCalls slerpRotation rest _).m_relax = self.m_relax
      rw [ih]
      exact (slow_call_keeps_state slerpRotation self child parent parentUpdated).1
  · induction calls generalizing self with
    | nil => exact fun h => h
    | cons c rest ih =>
      obtain ⟨child, parent, parentUpdated⟩ := c
      intro h
      show (KX_SlowParentRelation.afterCalls slerpRotation rest _).m_initialized = true
      exact ih _ ((slow_call_keeps_state slerpRotation self child parent parentUpdated).2 h)

/-- C16, at a concrete input: an initialized relation with relaxation 3, called first on a
root and then under `sampleParent`, is still initialized with relaxation 3. -/
theorem slow_state_never_reset_witness :
    (KX_SlowParentRelation.afterCalls sampleSlerp
        [(sampleChild, none, false), (unitChild, some sampleParent, true)]
        ⟨3, true⟩).m_initialized = true ∧
    (KX_SlowParentRelation.afterCalls sampleSlerp
        [(sampleChild, none, false), (unitChild, some sampleParent, true)]
        ⟨3, true⟩).m_relax = 3 :=
  ⟨(slow_state_never_reset sampleSlerp
      [(sampleChild, none, false), (unitChild, some sampleParent, true)] ⟨3, true⟩).2.1 rfl,
   (slow_state_never_reset sampleSlerp
      [(sampleChild, none, false), (unitChild, some sampleParent, true)] ⟨3, true⟩).1⟩

/-! ## Return value, flag threading and frame -/

/-- C17, refuted as stated: the returned boolean is true on calls that leave the world
transform as it was.  A modified root whose world transform already equals its local one
gets `true` from Rigid and from PositionOnly, and DampedFollow returns `true` on the
unmodified root `originParent`; in each case the world transform is unchanged. -/
theorem return_true_without_change :
    ((KX_NormalParentRelation.UpdateChildCoordinates { originParent with m_modified := true }
        none false).ret = true ∧
      (KX_NormalParentRelation.UpdateChildCoordinates { originParent with m_modified := true }
        none false).child.worldTransform
        = ({ originParent with m_modified := true } : SG_Spatial).worldTransform) ∧
    ((KX_VertexParentRelation.UpdateChildCoordinates { originParent with m_modified := true }
        none false).ret = true ∧
      (KX_VertexParentRelation.UpdateChildCoordinates { originParent with m_modified := true }
        none false).child.worldTransform
        = ({ originParent with m_modified := true } : SG_Spatial).worldTransform) ∧
    ((KX_SlowParentRelation.UpdateChildCoordinates sampleSlerp (KX_SlowParentRelation.New 3)
        originParent none false).ret = true ∧
      (KX_SlowParentRelation.UpdateChildCoordinates sampleSlerp (KX_SlowParentRelation.New 3)
        originParent none false).child.worldTransform = originParent.worldTransform) :=
  ⟨⟨rfl, rfl⟩, ⟨rfl, rfl⟩, ⟨rfl, rfl⟩⟩

/-- C17, amended. The returned boolean says whether work was done: Rigid and PositionOnly
return `parentUpdated || is_modified` (the values before the call) and DampedFollow returns
true; a returned false means the child, its world transform included, is exactly as before,
so a call that changes the world transform returns true. -/
theorem return_value_reports_work
    (slerpRotation : MT_Matrix3x3 → MT_Matrix3x3 → MT_Scalar → MT_Matrix3x3)
    (self : KX_SlowParentRelation) (child : SG_Spatial) (parent : Option SG_Spatial)
    (parentUpdated : Bool) :
    ((KX_NormalParentRelation.UpdateChildCoordinates child parent parentUpdated).ret
        = (parentUpdated || child.m_modified) ∧
      ((KX_NormalParentRelation.UpdateChildCoordinates child parent parentUpdated).ret = false →
        (KX_NormalParentRelation.UpdateChildCoordinates child parent parentUpdated).child
          = child)) ∧
    ((KX_VertexParentRelation.UpdateChildCoordinates child parent parentUpdated).ret
        = (parentUpdated || child.m_modified) ∧
      ((KX_VertexParentRelation.UpdateChildCoordinates child parent parentUpdated).ret = false →
        (KX_VertexParentRelation.UpdateChildCoordinates child parent parentUpdated).child
          = child)) ∧
    (self.UpdateChildCoordinates slerpRotation child parent parentUpdated).ret = true := by
  refine ⟨?_, ?_, rfl⟩
  · cases parentUpdated <;> cases hm : child.m_modified <;>
      simp [KX_NormalParentRelation.UpdateChildCoordinates, SG_Spatial.IsModified, hm]
  · cases parentUpdated <;> cases hm : child.m_modified <;>
      simp [KX_VertexParentRelation.UpdateChildCoordinates, SG_Spatial.IsModified, hm]

/-- C17, at a concrete input: the unmodified root `unitChild`, called with the flag down,
gets `false` from Rigid and is left as it was. -/
theorem return_value_reports_work_witness :
    (KX_NormalParentRelation.UpdateChildCoordinates unitChild none false).ret = false ∧
    (KX_NormalParentRelation.UpdateChildCoordinates unitChild none false).child = unitChild :=
  ⟨rfl,
   (return_value_reports_work sampleSlerp (KX_SlowParentRelation.New 3) unitChild none
      false).1.2 rfl⟩

/-- C19. Flag threading: for each of the three relations the value left in `parentUpdated`
equals the returned boolean; for Rigid and PositionOnly both equal the incoming
`parentUpdated` or-ed with the child's modified flag before the call; and a call that comes
in with `parentUpdated = true` leaves it true. -/
theorem flag_threading_consistent
    (slerpRotation : MT_Matrix3x3 → MT_Matrix3x3 → MT_Scalar → MT_Matrix3x3)
    (self : KX_SlowParentRelation) (child : SG_Spatial) (parent : Option SG_Spatial)
    (parentUpdated : Bool) :
    ((KX_NormalParentRelation.UpdateChildCoordinates child parent parentUpdated).parentUpdated
        = (KX_NormalParentRelation.UpdateChildCoordinates child parent parentUpdated).ret ∧
      (KX_NormalParentRelation.UpdateChildCoordinates child parent parentUpdated).ret
        = (parentUpdated || child.m_modified)) ∧
    ((KX_VertexParentRelation.UpdateChildCoordinates child parent parentUpdated).parentUpdated
        = (KX_VertexParentRelation.UpdateChildCoordinates child parent parentUpdated).ret ∧
      (KX_VertexParentRelation.UpdateChildCoordinates child parent parentUpdated).ret
        = (parentUpdated || child.m_modified)) ∧
    (self.UpdateChildCoordinates slerpRotation child parent parentUpdated).parentUpdated
      = (self.UpdateChildCoordinates slerpRotation child parent parentUpdated).ret ∧
    (KX_NormalParentRelation.UpdateChildCoordinates child parent true).parentUpdated = true ∧
    (KX_VertexParentRelation.UpdateChildCoordinates child parent true).parentUpdated = true ∧
    (self.UpdateChildCoordinates slerpRotation child parent true).parentUpdated = true := by
  refine ⟨?_, ?_, rfl, ?_, ?_, rfl⟩
  · cases parentUpdated <;> cases hm : child.m_modified <;>
      simp [KX_NormalParentRelation.UpdateChildCoordinates, SG_Spatial.IsModified, hm]
  · cases parentUpdated <;> cases hm : child.m_modified <;>
      simp [KX_VertexParentRelation.UpdateChildCoordinates, SG_Spatial.IsModified, hm]
  · simp [KX_NormalParentRelation.UpdateChildCoordinates]
  · simp [KX_VertexParentRelation.UpdateChildCoordinates]

/-- C20, refuted as stated: a call of DampedFollow also changes the node's reschedule
request, which is not among the things the claim allows to change. -/
theorem slow_call_sets_reschedule :
    sampleChild.m_rescheduled = false ∧
    (KX_SlowParentRelation.UpdateChildCoordinates sampleSlerp (KX_SlowParentRelation.New 3)
        sampleChild (some sampleParent) false).child.m_rescheduled = true :=
  ⟨rfl, rfl⟩

/-- C20, amended. Frame of one call: for each of the three relations, skipped or not, with
or without a parent, the child's local position, scale and orientation are unchanged (the
parent is only read: the call hands back no parent); Rigid and PositionOnly leave the
reschedule request as it was, DampedFollow raises it and keeps its relaxation factor.  So
only the world transform, the modified flag, `parentUpdated`, and for DampedFollow the
initialized flag and the reschedule request may change. -/
theorem update_frame
    (slerpRotation : MT_Matrix3x3 → MT_Matrix3x3 → MT_Scalar → MT_Matrix3x3)
    (self : KX_SlowParentRelation) (child : SG_Spatial) (parent : Option SG_Spatial)
    (parentUpdated : Bool) :
    ((KX_NormalParentRelation.UpdateChildCoordinates child parent parentUpdated).child.localTransform
        = child.localTransform ∧
      (KX_NormalParentRelation.UpdateChildCoordinates child parent parentUpdated).child.m_rescheduled
        = child.m_rescheduled) ∧
    ((KX_VertexParentRelation.UpdateChildCoordinates child parent parentUpdated).child.localTransform
        = child.localTransform ∧
      (KX_VertexParentRelation.UpdateChildCoordinates child parent parentUpdated).child.m_rescheduled
        = child.m_rescheduled) ∧
    ((self.UpdateChildCoordinates slerpRotation child parent parentUpdated).child.localTransform
        = child.localTransform ∧
      (self.UpdateChildCoordinates slerpRotation child parent parentUpdated).child.m_rescheduled
        = true ∧
      (self.UpdateChildCoordinates slerpRotation child parent parentUpdated).relation.m_relax
        = self.m_relax) := by
  refine ⟨?_, ?_, rfl, rfl,
    (slow_call_keeps_state slerpRotation self child parent parentUpdated).1⟩
  · cases parentUpdated <;> cases hm : child.m_modified <;> cases parent <;>
      simp only [KX_NormalParentRelation.UpdateChildCoordinates, SG_Spatial.IsModified, hm] <;>
      exact ⟨rfl, rfl⟩
  · cases parentUpdated <;> cases hm : child.m_modified <;> cases parent <;>
      simp only [KX_VertexParentRelation.UpdateChildCoordinates, SG_Spatial.IsModified, hm] <;>
      exact ⟨rfl, rfl⟩

end KX

namespace GLVertArray

/-! ## The bitflag returned by `vbo_bind` -/

end GLVertArray

namespace Volume

/-! ## Range of the sampled cosine -/

theorem k_denominator_pos (g u : ℚ) (hg : |g| < 1) (hu0 : 0 ≤ u) (hu1 : u ≤ 1) :
    0 < 1 - g + 2 * g * u := by
  obtain ⟨hlo, hhi⟩ := abs_lt.mp hg
  rcases le_or_lt 0 g with h | h
  · nlinarith [mul_nonneg h hu0]
  · nlinarith [mul_nonneg (le_of_lt (neg_pos.mpr h)) (sub_nonneg.mpr hu1)]

/-- For a positive anisotropy `k` lies between `1 - g` and `1 + g`. -/
theorem sample_k_bounds_pos (g u : ℚ) (hg0 : 0 < g) (hg1 : g < 1) (hu0 : 0 ≤ u)
    (hu1 : u ≤ 1) :
    1 - g ≤ (1 - g * g) / (1 - g + 2 * g * u) ∧
    (1 - g * g) / (1 - g + 2 * g * u) ≤ 1 + g := by
  have hd : 0 < 1 - g + 2 * g * u :=
    k_denominator_pos g u (abs_lt.mpr ⟨by linarith, hg1⟩) hu0 hu1
  constructor
  · rw [le_div_iff₀ hd]
    nlinarith [mul_nonneg hg0.le (sub_nonneg.mpr hu1), mul_nonneg hg0.le hu0]
  · rw [div_le_iff₀ hd]
    nlinarith [mul_nonneg hg0.le (sub_nonneg.mpr hu1), mul_nonneg hg0.le hu0]

/-- For a negative anisotropy `k` lies between `1 + g` and `1 - g`. -/
theorem sample_k_bounds_neg (g u : ℚ) (hg0 : g < 0) (hg1 : -1 < g) (hu0 : 0 ≤ u)
    (hu1 : u ≤ 1) :
    1 + g ≤ (1 - g * g) / (1 - g + 2 * g * u) ∧
    (1 - g * g) / (1 - g + 2 * g * u) ≤ 1 - g := by
  have hd : 0 < 1 - g + 2 * g * u :=
    k_denominator_pos g u (abs_lt.mpr ⟨hg1, by linarith⟩) hu0 hu1
  have hn : 0 ≤ -g := by linarith
  constructor
  · rw [le_div_iff₀ hd]
    nlinarith [mul_nonneg hn (sub_nonneg.mpr hu1), mul_nonneg hn hu0]
  · rw [div_le_iff₀ hd]
    nlinarith [mul_nonneg hn (sub_nonneg.mpr hu1), mul_nonneg hn hu0]

/-- The cosine formula stays in `[-1, 1]` once `k` lies between `1 - |g|` and `1 + |g|`. -/
theorem cos_formula_range (g k : ℚ) (hg1 : |g| < 1)
    (hk : (0 < g ∧ 1 - g ≤ k ∧ k ≤ 1 + g) ∨ (g < 0 ∧ 1 + g ≤ k ∧ k ≤ 1 - g)) :
    -1 ≤ (1 + g * g - k * k) / (2 * g) ∧ (1 + g * g - k * k) / (2 * g) ≤ 1 := by
  obtain ⟨hlo, hhi⟩ := abs_lt.mp hg1
  rcases hk with ⟨hpos, hk1, hk2⟩ | ⟨hneg, hk1, hk2⟩
  · have h2g : 0 < 2 * g := by linarith
    constructor
    · rw [le_div_iff₀ h2g]
      nlinarith
    · rw [div_le_iff₀ h2g]
      nlinarith
  · have h2g : 2 * g < 0 := by linarith
    constructor
    · rw [le_div_iff_of_neg h2g]
      nlinarith
    · rw [div_le_iff_of_neg h2g]
      nlinarith

/-- Past the uniform-sphere branch the sampled cosine is the formula of the inner `else`. -/
theorem sample_cos_theta_eq (g u : ℚ) (hg0 : magic_eps ≤ |g|) :
    sample_cos_theta g u
      = some ((1 + g * g - sample_k g u * sample_k g u) / (2 * g)) := by
  have hnot : ¬ |g| < magic_eps := not_lt.mpr hg0
  simp only [sample_cos_theta, sample_k, hnot, if_false]

/-- C21. Henyey-Greenstein sampling stays in range: for `0.001 ≤ |g| < 1` and `randu` in
`[0, 1]` the denominator `1 - g + 2 * g * randu` is positive, the sampled cosine is
`(1 + g^2 - k^2) / (2 * g)` with `k = (1 - g^2) / (1 - g + 2 * g * randu)`, it lies in
`[-1, 1]`, it is `-1` at `randu = 0` and `1` at `randu = 1`, and the argument
`1 - cos_theta^2` of the square root is not negative. -/
theorem henyey_greenstein_cos_in_range (g u : ℚ)
    (hg0 : magic_eps ≤ |g|) (hg1 : |g| < 1) (hu0 : 0 ≤ u) (hu1 : u ≤ 1) :
    0 < k_denominator g u ∧
    sample_cos_theta g u
      = some ((1 + g * g - sample_k g u * sample_k g u) / (2 * g)) ∧
    (∀ c, sample_cos_theta g u = some c →
      -1 ≤ c ∧ c ≤ 1 ∧ 0 ≤ sin_theta_radicand c) ∧
    sample_cos_theta g 0 = some (-1) ∧
    sample_cos_theta g 1 = some 1 := by
  obtain ⟨hlo, hhi⟩ := abs_lt.mp hg1
  have hepos : (0 : ℚ) < magic_eps := by norm_num [magic_eps]
  have habs : 0 < |g| := lt_of_lt_of_le hepos hg0
  have hne : g ≠ 0 := abs_pos.mp habs
  have hbounds : (0 < g ∧ 1 - g ≤ sample_k g u ∧ sample_k g u ≤ 1 + g) ∨
      (g < 0 ∧ 1 + g ≤ sample_k g u ∧ sample_k g u ≤ 1 - g) := by
    rcases lt_or_gt_of_ne hne with h | h
    · exact Or.inr ⟨h, sample_k_bounds_neg g u h hlo hu0 hu1⟩
    · exact Or.inl ⟨h, sample_k_bounds_pos g u h hhi hu0 hu1⟩
  obtain ⟨hc1, hc2⟩ := cos_formula_range g (sample_k g u) hg1 hbounds
  refine ⟨k_denominator_pos g u hg1 hu0 hu1, sample_cos_theta_eq g u hg0, ?_, ?_, ?_⟩
  · intro c hc
    rw [sample_cos_theta_eq g u hg0] at hc
    have hEq : (1 + g * g - sample_k g u * sample_k g u) / (2 * g) = c := by simpa using hc
    subst hEq
    refine ⟨hc1, hc2, ?_⟩
    show 0 ≤ 1 - _ * _
    nlinarith
  · rw [sample_cos_theta_eq g 0 hg0]
    have h1 : 1 - g ≠ 0 := by linarith
    simp only [sample_k, mul_zero, add_zero]
    congr 1
    field_simp
    ring
  · rw [sample_cos_theta_eq g 1 hg0]
    have h1 : 1 + g ≠ 0 := by linarith
    have h2 : 1 - g + 2 * g * 1 = 1 + g := by ring
    simp only [sample_k, h2]
    congr 1
    field_simp
    ring

/-- C21, at a concrete input: anisotropy `1 / 2` and `randu = 1 / 4`. -/
theorem henyey_greenstein_cos_in_range_witness :
    magic_eps ≤ |(1 / 2 : ℚ)| ∧ |(1 / 2 : ℚ)| < 1 ∧
    0 < k_denominator (1 / 2) (1 / 4) ∧
    (∀ c, sample_cos_theta (1 / 2) (1 / 4) = some c →
      -1 ≤ c ∧ c ≤ 1 ∧ 0 ≤ sin_theta_radicand c) :=
  ⟨by norm_num [magic_eps, abs_of_pos],
   by norm_num [abs_of_pos],
   (henyey_greenstein_cos_in_range (1 / 2) (1 / 4)
      (by norm_num [magic_eps, abs_of_pos]) (by norm_num [abs_of_pos])
      (by norm_num) (by norm_num)).1,
   (henyey_greenstein_cos_in_range (1 / 2) (1 / 4)
      (by norm_num [magic_eps, abs_of_pos]) (by norm_num [abs_of_pos])
      (by norm_num) (by norm_num)).2.2.1⟩

end Volume
